import Mathlib

/-!
fantokenintel-cli: a shallow embedding of the settings store, the API client, the
view formatters and the command handlers.

Go values are modelled as follows.

* `string` is `String` and `[]byte` is the text it holds; `error` is the text of the
  error (`err.Error()`) with `none` for nil, and a function that returns a value
  and an error returns the pair, as in Go. Where the program takes the `len` of a
  string or slices it (`shortTime`, `TruncStr`), the string is its UTF-8 bytes.
* `int` is `Int`; the one product that can overflow, the duration of the ticker,
  wraps around explicitly (`tickerDuration`).
* `map[string]string` is the list of its entries in the order in which a `range`
  loop happens to visit them; the keys of a map are pairwise distinct.
* `url.Values` (`map[string][]string`) is an association list from keys to value
  lists.
* Functions of the Go standard library and of third-party packages
  (`encoding/json`, `net/http`, `toml`, `color`) are not part of the repository;
  their behaviour is taken as a parameter (`Lib`, `World`).
-/

namespace Fti

/-! ## cmd/helpers.go -/

/-- Go `map[string]string`, as the sequence of entries visited by `range`. -/
abbrev StrMap := List (String × String)

/-- Go `url.Values`. -/
abbrev Values := List (String × List String)

/-- The keys of a map, in iteration order. -/
def mapKeys (m : StrMap) : List String := m.map Prod.fst

/-- Map indexing `m[k]` with the comma-ok form: the value of the first entry under `k`. -/
def mapGet : StrMap → String → Option String
  | [], _ => none
  | (k', v) :: rest, k => if k' = k then some v else mapGet rest k

/-- Indexing of `url.Values`: `q[k]` with the comma-ok form. -/
def valuesGet : Values → String → Option (List String)
  | [], _ => none
  | (k', vs) :: rest, k => if k' = k then some vs else valuesGet rest k

/-- The method `url.Values.Set`: `q[k] = []string{v}`, replacing what was there. -/
def valuesSet : Values → String → String → Values
  | [], k, v => [(k, [v])]
  | (k', vs) :: rest, k, v =>
    if k' = k then (k, [v]) :: rest else (k', vs) :: valuesSet rest k v

/-- The body of the loop of `buildQuery`: `if v != "" { q.Set(k, v) }`. -/
def buildQueryStep (q : Values) (kv : String × String) : Values :=
  if kv.2 ≠ "" then valuesSet q kv.1 kv.2 else q

/-- The function `buildQuery` of cmd/helpers.go. -/
def buildQuery (params : StrMap) : Values :=
  params.foldl buildQueryStep []

/-! ## The outside world -/

/-- A Go `error` value, by its message; `none` is `nil`. -/
abbrev GoError := Option String

/-- Persisted CLI settings (`Config` of internal/config.go). -/
structure Config where
  APIKey : String
  APIURL : String
deriving DecidableEq, Repr

/-- What the file system holds at a path, as far as `LoadConfig` can tell. -/
inductive FileState where
  /-- `os.Stat` reports that the file does not exist. -/
  | missing
  /-- The file cannot be opened or read: `toml.DecodeFile` fails with this message. -/
  | unreadable (err : String)
  /-- The file exists and holds this text. -/
  | content (data : String)
deriving DecidableEq, Repr

/-- An outgoing `*http.Request`. -/
structure Request where
  Method : String
  URL : String
  Header : Values
  Body : Option String
deriving DecidableEq, Repr

/-- An incoming `*http.Response`: the status code and the outcome of
`io.ReadAll(resp.Body)`. -/
structure Response where
  StatusCode : Int
  Body : Except String String

/-- The shapes into which the handlers decode a response body. -/
inductive Shape where
  | activeSignals
  | signalHistory
  | authMe
  | authRegister
  | tokenPrice
  | tokenDetail
  | priceHistory
  | whaleTrades
  | matches
deriving DecidableEq, Repr

/-- Behaviour of the Go standard library and of the third-party packages the
program calls. None of it is code of the repository, so it is a parameter. -/
structure Lib where
  /-- `filepath.Join(home, ".fti", "config.toml")`. -/
  joinConfigPath : String → String
  /-- `toml.DecodeFile` on the text of a file, into a zero `Config`. -/
  tomlDecode : String → Except String Config
  /-- `http.StatusText`. -/
  statusText : Int → String
  /-- `json.Unmarshal(body, &apiErr)` for `struct { Detail string }`: the value of
  `apiErr.Detail` after the call and the error returned. -/
  unmarshalDetail : String → String × GoError
  /-- `json.Unmarshal(body, out)` for a response shape: the error returned. -/
  unmarshal : Shape → String → GoError
  /-- `json.Marshal` of a `map[string]string`. -/
  marshal : StrMap → Except String String
  /-- `url.Values.Encode`. -/
  encode : Values → String
  /-- `http.NewRequest` fails when the method or the URL is malformed. -/
  newRequestErr : String → String → GoError
  /-- `strings.ToUpper`. -/
  toUpper : String → String
  /-- `strings.TrimSpace`. -/
  trimSpace : String → String
  /-- `filepath.Dir`. -/
  dir : String → String
  /-- `toml.NewEncoder(f).Encode(cfg)`: the text the encoder produces for a `Config`,
  or its error. -/
  tomlEncode : Config → Except String String

/-- The environment of one invocation of the program. -/
structure World where
  /-- `os.UserHomeDir()`. -/
  home : Except String String
  /-- `os.Getenv`; an unset variable reads as the empty string. -/
  getenv : String → String
  /-- The file system, by path. -/
  fs : String → FileState
  /-- `HTTPClient.Do`: the reply of the network to a request. -/
  httpDo : Request → Except String Response
  /-- The successive results of `reader.ReadString` on standard input. -/
  stdin : List String
  /-- `os.MkdirAll(dir, 0700)`: the error, if any. -/
  mkdirAllErr : String → GoError
  /-- `os.Create(path)`: the error, if any; on success the file exists and is empty. -/
  createErr : String → GoError
  /-- Writing a text to the file at a path: `none` when all of it is written, else
  the error together with what did reach the file. -/
  writeErr : String → String → Option (String × String)

/-! ## internal/config.go -/

/-- The function `configPath` of internal/config.go. -/
def configPath (lib : Lib) (w : World) : String × GoError :=
  match w.home with
  | .error err => ("", some err)
  | .ok home => (lib.joinConfigPath home, none)

/-- The function `LoadConfig`: the settings stored at the configuration path. -/
def LoadConfig (lib : Lib) (w : World) : Config × GoError :=
  match configPath lib w with
  | (_, some err) => (⟨"", ""⟩, some err)
  | (path, none) =>
    match w.fs path with
    | .missing => (⟨"", ""⟩, none)
    | .unreadable err => (⟨"", ""⟩, some ("reading config: " ++ err))
    | .content data =>
      match lib.tomlDecode data with
      | .error err => (⟨"", ""⟩, some ("reading config: " ++ err))
      | .ok cfg => (cfg, none)

/-- The function `ResolveAPIKey`: flag value, then `FTI_API_KEY`, then the file. -/
def ResolveAPIKey (lib : Lib) (w : World) (flagValue : String) : String × GoError :=
  if flagValue ≠ "" then (flagValue, none)
  else if w.getenv "FTI_API_KEY" ≠ "" then (w.getenv "FTI_API_KEY", none)
  else
    match LoadConfig lib w with
    | (_, some err) => ("", some err)
    | (cfg, none) => (cfg.APIKey, none)

/-- The function `ResolveBaseURL`: `FTI_API_URL`, then the file, then the default. -/
def ResolveBaseURL (lib : Lib) (w : World) (defaultURL : String) : String :=
  if w.getenv "FTI_API_URL" ≠ "" then w.getenv "FTI_API_URL"
  else
    let cfg := (LoadConfig lib w).1
    if cfg.APIURL ≠ "" then cfg.APIURL else defaultURL

/-- The world in which the file at `path` holds `data`. -/
def World.withFile (w : World) (path data : String) : World :=
  { w with fs := fun p => if p = path then FileState.content data else w.fs p }

/-- The function `SaveConfig`: the world it leaves and the error it returns. A file
that `os.Create` has opened is empty until the encoder has written to it. -/
def SaveConfig (lib : Lib) (w : World) (cfg : Config) : World × GoError :=
  match configPath lib w with
  | (_, some err) => (w, some err)
  | (path, none) =>
    match w.mkdirAllErr (lib.dir path) with
    | some err => (w, some ("creating config dir: " ++ err))
    | none =>
      match w.createErr path with
      | some err => (w, some ("writing config: " ++ err))
      | none =>
        match lib.tomlEncode cfg with
        | .error err => (w.withFile path "", some err)
        | .ok text =>
          match w.writeErr path text with
          | some (err, reached) => (w.withFile path reached, some err)
          | none => (w.withFile path text, none)

/-! ## internal/client.go -/

/-- The type `Client`; `Timeout` is the timeout of its `HTTPClient`, in seconds. -/
structure Client where
  BaseURL : String
  APIKey : String
  Timeout : Nat
deriving DecidableEq, Repr

/-- The function `NewClient`. -/
def NewClient (baseURL apiKey : String) : Client :=
  { BaseURL := baseURL, APIKey := apiKey, Timeout := 30 }

/-- The method `req.Header.Set(key, value)`. -/
def Request.setHeader (req : Request) (key value : String) : Request :=
  { req with Header := valuesSet req.Header key value }

/-- The function `http.NewRequest`: a request without headers, or the error of the
library. -/
def newRequest (lib : Lib) (method url : String) (body : Option String) :
    Option Request × GoError :=
  match lib.newRequestErr method url with
  | some err => (none, some err)
  | none => (some { Method := method, URL := url, Header := [], Body := body }, none)

/-- The headers that `Client.do` puts on a request before sending it. -/
def Client.prepare (c : Client) (req : Request) : Request :=
  let req := if c.APIKey ≠ "" then req.setHeader "Authorization" ("Bearer " ++ c.APIKey) else req
  let req := req.setHeader "Accept" "application/json"
  req.setHeader "User-Agent" "fti-cli/1.0"

/-- The method `Client.do`: the body and the error returned, and the requests handed
to `HTTPClient.Do` on the way. -/
def Client.do (lib : Lib) (w : World) (c : Client) (req : Request) :
    (Option String × GoError) × List Request :=
  let req := c.prepare req
  match w.httpDo req with
  | .error err => ((none, some ("request failed: " ++ err)), [req])
  | .ok resp =>
    match resp.Body with
    | .error err => ((none, some ("reading response: " ++ err)), [req])
    | .ok body =>
      if resp.StatusCode ≥ 400 then
        let (detail, e) := lib.unmarshalDetail body
        if e = none ∧ detail ≠ "" then
          ((none, some ("API error " ++ toString resp.StatusCode ++ ": " ++ detail)), [req])
        else
          ((none, some ("API error " ++ toString resp.StatusCode ++ ": "
            ++ lib.statusText resp.StatusCode)), [req])
      else
        ((some body, none), [req])

/-- The method `Client.Get`: the raw body and the error returned, and the requests
sent. `out` is the shape to decode into, `none` when the caller passes nil. -/
def Client.Get (lib : Lib) (w : World) (c : Client) (path : String) (params : Values)
    (out : Option Shape) : (Option String × GoError) × List Request :=
  let endpoint := c.BaseURL ++ path
  let endpoint := if params.length > 0 then endpoint ++ "?" ++ lib.encode params else endpoint
  match newRequest lib "GET" endpoint none with
  | (none, err) => ((none, err), [])
  | (some req, _) =>
    match Client.do lib w c req with
    | ((_, some err), sent) => ((none, some err), sent)
    | ((body, none), sent) =>
      match out with
      | none => ((body, none), sent)
      | some shape =>
        match lib.unmarshal shape (body.getD "") with
        | some err => ((none, some ("parsing response: " ++ err)), sent)
        | none => ((body, none), sent)

/-- The method `Client.Post`, for a `map[string]string` payload. -/
def Client.Post (lib : Lib) (w : World) (c : Client) (path : String) (payload : StrMap)
    (out : Option Shape) : (Option String × GoError) × List Request :=
  match lib.marshal payload with
  | .error err => ((none, some err), [])
  | .ok data =>
    match newRequest lib "POST" (c.BaseURL ++ path) (some data) with
    | (none, err) => ((none, err), [])
    | (some req, _) =>
      let req := req.setHeader "Content-Type" "application/json"
      match Client.do lib w c req with
      | ((_, some err), sent) => ((none, some err), sent)
      | ((body, none), sent) =>
        match out with
        | none => ((body, none), sent)
        | some shape =>
          match lib.unmarshal shape (body.getD "") with
          | some err => ((none, some ("parsing response: " ++ err)), sent)
          | none => ((body, none), sent)

/-! ## internal/output.go and the formatters of cmd/signals.go

A finite `float64` is modelled by the rational number it denotes: there is no NaN
and no infinity, and comparisons are exact. Division rounds the exact quotient to
the nearest `float64`, halves to even, as IEEE 754 does (`divF64`). The verb `%.Nf`
of `fmt` rounds the exact value to `N` decimals, halves to even. The two zeros of
`float64` compare equal, so a function that first compares with zero takes the
rational; `FormatChange` prints the sign of a zero and takes a `Float64`, which has
both.

A string built by `color.Sprint` is modelled by its text together with the colour
it was given; the escape sequences are the business of the `color` package. -/

/-- The colours of internal/output.go. -/
inductive Color where
  | Bold | Dim | Green | Red | Yellow | Cyan | Magenta | White
deriving DecidableEq, Repr

/-- A string, with the colour `color.Sprint` gave it if any. -/
structure Styled where
  color : Option Color
  text : String
deriving DecidableEq, Repr

/-- The method `Sprint` of a colour, on one string. -/
def Color.Sprint (c : Color) (s : String) : Styled := ⟨some c, s⟩

/-- A string that went through no colour. -/
def plain (s : String) : Styled := ⟨none, s⟩

/-- The nearest natural number to `num / den`, halves going to the even neighbour. -/
def roundHalfEven (num den : Nat) : Nat :=
  let q := num / den
  let r := num % den
  if 2 * r < den then q
  else if den < 2 * r then q + 1
  else if q % 2 = 0 then q else q + 1

/-- The decimal digit of a number below ten. -/
def digitChar (d : Nat) : Char := Char.ofNat (48 + d % 10)

/-- The last `n` decimal digits of `k`, most significant first, zero padded. -/
def fracDigits : Nat → Nat → List Char
  | 0, _ => []
  | n + 1, k => fracDigits n (k / 10) ++ [digitChar k]

/-- The verbs `%.Nf` (`plus = false`) and `%+.Nf` (`plus = true`) of `fmt.Sprintf` on
a finite value: sign, integer part, and `prec` decimals after a point when
`prec > 0`. -/
def fmtFixed (prec : Nat) (plus : Bool) (x : ℚ) : String :=
  let n := roundHalfEven (x.num.natAbs * 10 ^ prec) x.den
  let sign := if x < 0 then "-" else if plus then "+" else ""
  let whole := toString (n / 10 ^ prec)
  if prec = 0 then sign ++ whole
  else sign ++ whole ++ "." ++ String.mk (fracDigits prec (n % 10 ^ prec))

/-- A finite `float64` with the sign of its zero: negative zero, or the number that
the value denotes, `num 0` being positive zero. -/
inductive Float64 where
  | negZero
  | num (q : ℚ)
deriving DecidableEq

/-- The number a `float64` denotes; both zeros denote zero. -/
def Float64.toRat : Float64 → ℚ
  | Float64.negZero => 0
  | Float64.num q => q

/-- The verb `%+.Nf` of `fmt.Sprintf`: the sign is always printed, and it is the minus
sign exactly when the sign bit is set, as it is for negative zero. -/
def fmtSigned (prec : Nat) : Float64 → String
  | Float64.negZero => "-" ++ fmtFixed prec false 0
  | Float64.num q => fmtFixed prec true q

/-- The function `FormatChange`: a percentage change, green above zero, red below. -/
def FormatChange (pct : Float64) : Styled :=
  let s := fmtSigned 2 pct ++ "%"
  if pct.toRat > 0 then Color.Green.Sprint s
  else if pct.toRat < 0 then Color.Red.Sprint s
  else plain s

/-- The number of times `n` can be halved before it is below two, at most `fuel`
times. -/
def log2Fuel : Nat → Nat → Nat
  | 0, _ => 0
  | fuel + 1, n => if 2 ≤ n then log2Fuel fuel (n / 2) + 1 else 0

/-- The integer part of the binary logarithm of `n`, zero for `n = 0`: the function
`Nat.log2`, by a recursion that evaluates on large numbers. -/
def ilog2 (n : Nat) : Nat := log2Fuel n n

/-- The integer part of the binary logarithm of `n / d`, for positive `n` and `d`. -/
def floorLog2 (n d : Nat) : Int :=
  let k : Int := (ilog2 n : Int) - (ilog2 d : Int)
  if 0 ≤ k then (if d * 2 ^ k.toNat ≤ n then k else k - 1)
  else (if d ≤ n * 2 ^ (-k).toNat then k else k - 1)

/-- The `float64` nearest to a rational, halves going to the even mantissa: the
rounding of IEEE 754 arithmetic. The value is `m * 2 ^ e` with a mantissa `m` of at
most 53 bits and `e` no less than -1074 (below `2 ^ -1022` the values are
subnormal). A result beyond the largest `float64` would be an infinity; a finite
`float64` divided by a thousand or more is never that large. -/
def roundF64 (x : ℚ) : ℚ :=
  if x = 0 then 0
  else
    let n := x.num.natAbs
    let d := x.den
    let e : Int := max (floorLog2 n d - 52) (-1074)
    let m : Nat :=
      if 0 ≤ e then roundHalfEven n (d * 2 ^ e.toNat)
      else roundHalfEven (n * 2 ^ (-e).toNat) d
    let r : ℚ := if 0 ≤ e then ((m * 2 ^ e.toNat : Nat) : ℚ) else mkRat m (2 ^ (-e).toNat)
    if x < 0 then -r else r

/-- The quotient `a / b` of two `float64`. -/
def divF64 (a b : ℚ) : ℚ := roundF64 (a / b)

/-- The function `FormatPrice`: a USD price. -/
def FormatPrice (p : ℚ) : Styled :=
  if p = 0 then Color.Dim.Sprint "—"
  else if p < 1 / 100 then plain ("$" ++ fmtFixed 6 false p)
  else if p < 1 then plain ("$" ++ fmtFixed 4 false p)
  else plain ("$" ++ fmtFixed 3 false p)

/-- The function `FormatVolume`: a USD volume with a K or M suffix. -/
def FormatVolume (v : ℚ) : Styled :=
  if v = 0 then Color.Dim.Sprint "—"
  else if v ≥ 1000000 then plain ("$" ++ fmtFixed 1 false (divF64 v 1000000) ++ "M")
  else if v ≥ 1000 then plain ("$" ++ fmtFixed 1 false (divF64 v 1000) ++ "K")
  else plain ("$" ++ fmtFixed 0 false v)

/-- The function `formatPnl` of cmd/signals.go. -/
def formatPnl (pct : ℚ) : Styled :=
  if pct = 0 then Color.Dim.Sprint "—"
  else
    let s := fmtFixed 1 true pct ++ "%"
    if pct > 0 then Color.Green.Sprint s else Color.Red.Sprint s

/-! ## cmd/root.go, cmd/signals.go and cmd/auth.go

A handler is modelled by the error it returns and the requests it sends; what it
prints on success is left out. -/

/-- The command-line flags (the package variables that cobra fills in). -/
structure Flags where
  apiKey : String
  jsonOut : Bool
  signalsToken : String
  signalsMinConf : ℚ
  signalsDays : Int
  signalsOutcome : String
  signalsLimit : Int
  pricesHistory : Bool
  pricesDays : Int
  pricesInterval : String
  pricesLimit : Int
  whalesAll : Bool
  whalesHours : Int
  whalesLimit : Int
  whalesMinValue : ℚ
  whalesWatch : Bool
  whalesInterval : Int
  sportsToken : String
  sportsDays : Int

/-- The constant `defaultBaseURL` of cmd/root.go. -/
def defaultBaseURL : String := "https://web-production-ad7c4.up.railway.app"

/-- Map assignment `m[k] = v`. -/
def mapSet : StrMap → String → String → StrMap
  | [], k, v => [(k, v)]
  | (k', v') :: rest, k, v => if k' = k then (k, v) :: rest else (k', v') :: mapSet rest k v

/-- The handler of `signals active`. -/
def signalsActive (lib : Lib) (w : World) (fl : Flags) : GoError × List Request :=
  match ResolveAPIKey lib w fl.apiKey with
  | (_, some err) => (some err, [])
  | (key, none) =>
    if key = "" then (some "API key required — run: fti auth login", [])
    else
      let baseURL := ResolveBaseURL lib w defaultBaseURL
      let c := NewClient baseURL key
      let params : StrMap := [("min_confidence", fmtFixed 2 false fl.signalsMinConf)]
      let params :=
        if fl.signalsToken ≠ "" then mapSet params "token" (lib.toUpper fl.signalsToken)
        else params
      let q := buildQuery params
      match c.Get lib w "/api/v1/signals/active" q (some Shape.activeSignals) with
      | ((_, some err), sent) => (some err, sent)
      | ((_, none), sent) => (none, sent)

/-- The handler of `signals history`. -/
def signalsHistory (lib : Lib) (w : World) (fl : Flags) : GoError × List Request :=
  match ResolveAPIKey lib w fl.apiKey with
  | (_, some err) => (some err, [])
  | (key, none) =>
    if key = "" then (some "API key required — run: fti auth login", [])
    else
      let baseURL := ResolveBaseURL lib w defaultBaseURL
      let c := NewClient baseURL key
      let params : StrMap :=
        [("days", toString fl.signalsDays), ("limit", toString fl.signalsLimit)]
      let params :=
        if fl.signalsToken ≠ "" then mapSet params "token" (lib.toUpper fl.signalsToken)
        else params
      let params :=
        if fl.signalsOutcome ≠ "" then mapSet params "outcome" fl.signalsOutcome else params
      let q := buildQuery params
      match c.Get lib w "/api/v1/signals/history" q (some Shape.signalHistory) with
      | ((_, some err), sent) => (some err, sent)
      | ((_, none), sent) => (none, sent)

/-- The handler of `auth me`. -/
def authMe (lib : Lib) (w : World) (fl : Flags) : GoError × List Request :=
  match ResolveAPIKey lib w fl.apiKey with
  | (_, some err) => (some err, [])
  | (key, none) =>
    if key = "" then (some "no API key found — run: fti auth login", [])
    else
      let baseURL := ResolveBaseURL lib w defaultBaseURL
      let c := NewClient baseURL key
      match c.Get lib w "/api/v1/auth/me" [] (some Shape.authMe) with
      | ((_, some err), sent) => (some err, sent)
      | ((_, none), sent) => (none, sent)

/-- The handler of `auth register`: four lines of standard input, then one POST. -/
def authRegister (lib : Lib) (w : World) : GoError × List Request :=
  let name := lib.trimSpace (w.stdin.getD 0 "")
  let email := lib.trimSpace (w.stdin.getD 1 "")
  let desc := lib.trimSpace (w.stdin.getD 2 "")
  let scope := lib.trimSpace (w.stdin.getD 3 "")
  let scope := if scope = "" then "read" else scope
  let baseURL := ResolveBaseURL lib w defaultBaseURL
  let c := NewClient baseURL ""
  let payload : StrMap :=
    [("name", name), ("email", email), ("description", desc), ("scope", scope)]
  match c.Post lib w "/api/v1/auth/register" payload (some Shape.authRegister) with
  | ((_, some err), sent) => (some err, sent)
  | ((_, none), sent) => (none, sent)

/-- The handler of `auth login`: the error it returns and the world it leaves. The
key is the first line of standard input. -/
def authLogin (lib : Lib) (w : World) : GoError × World :=
  let key := lib.trimSpace (w.stdin.getD 0 "")
  if key = "" then (some "no API key provided", w)
  else
    match LoadConfig lib w with
    | (_, some err) => (some err, w)
    | (cfg, none) =>
      let cfg := { cfg with APIKey := key }
      match SaveConfig lib w cfg with
      | (w', some err) => (some err, w')
      | (w', none) => (none, w')

/-! ## cmd/prices.go, cmd/tokens.go, cmd/sports.go and cmd/whales.go -/

/-- The function `currentPrice`. -/
def currentPrice (lib : Lib) (w : World) (c : Client) (symbol : String) :
    GoError × List Request :=
  match c.Get lib w ("/api/tokens/" ++ symbol) [] (some Shape.tokenPrice) with
  | ((_, some err), sent) => (some err, sent)
  | ((_, none), sent) => (none, sent)

/-- The function `priceHistory`, up to the request. -/
def priceHistory (lib : Lib) (w : World) (fl : Flags) (c : Client) (symbol : String) :
    GoError × List Request :=
  let q := buildQuery [("interval", fl.pricesInterval), ("days", toString fl.pricesDays)]
  match c.Get lib w ("/api/tokens/" ++ symbol ++ "/history") q (some Shape.priceHistory) with
  | ((_, some err), sent) => (some err, sent)
  | ((_, none), sent) => (none, sent)

/-- The handler of `prices <SYMBOL>`; `arg` is `args[0]`, which cobra guarantees. -/
def pricesCmd (lib : Lib) (w : World) (fl : Flags) (arg : String) : GoError × List Request :=
  let symbol := lib.toUpper arg
  let baseURL := ResolveBaseURL lib w defaultBaseURL
  let c := NewClient baseURL ""
  if !fl.pricesHistory then currentPrice lib w c symbol
  else priceHistory lib w fl c symbol

/-- The handler of `tokens get <SYMBOL>`. -/
def tokensGet (lib : Lib) (w : World) (arg : String) : GoError × List Request :=
  let symbol := lib.toUpper arg
  let baseURL := ResolveBaseURL lib w defaultBaseURL
  let c := NewClient baseURL ""
  match c.Get lib w ("/api/tokens/" ++ symbol) [] (some Shape.tokenDetail) with
  | ((_, some err), sent) => (some err, sent)
  | ((_, none), sent) => (none, sent)

/-- The handler of `sports upcoming`. -/
def sportsUpcoming (lib : Lib) (w : World) (fl : Flags) : GoError × List Request :=
  let baseURL := ResolveBaseURL lib w defaultBaseURL
  let c := NewClient baseURL ""
  let params : StrMap := [("days", toString fl.sportsDays), ("limit", "100")]
  let params :=
    if fl.sportsToken ≠ "" then mapSet params "token" (lib.toUpper fl.sportsToken)
    else params
  let q := buildQuery params
  match c.Get lib w "/api/matches/upcoming" q (some Shape.matches) with
  | ((_, some err), sent) => (some err, sent)
  | ((_, none), sent) => (none, sent)

/-- The function `whalesCombined`: one fetch of the whale trades. -/
def whalesCombined (lib : Lib) (w : World) (fl : Flags) (c : Client) (symbol : String) :
    GoError × List Request :=
  let params : StrMap :=
    [("limit", toString fl.whalesLimit), ("min_value", fmtFixed 0 false fl.whalesMinValue),
      ("hours", toString fl.whalesHours)]
  let params := if symbol ≠ "" then mapSet params "symbol" symbol else params
  let q := buildQuery params
  match c.Get lib w "/api/whales/combined" q (some Shape.whaleTrades) with
  | ((_, some err), sent) => (some err, sent)
  | ((_, none), sent) => (none, sent)

/-- What the `select` of the watch loop receives: a tick of the ticker, together
with the answer the network gives to the fetch of that tick, or a signal. -/
inductive Event where
  | tick (net : Request → Except String Response)
  | interrupt

/-- What the whales handler has done so far: the result of each call of
`whalesCombined` in order, the lines written to standard error, and the requests
sent. -/
structure WatchLog where
  fetches : List GoError
  stderr : List String
  sent : List Request

/-- One refresh of watch mode: `whalesCombined`, whose error goes to standard error
and nowhere else. -/
def watchRefresh (lib : Lib) (w : World) (fl : Flags) (c : Client) (symbol : String)
    (log : WatchLog) : WatchLog :=
  let r := whalesCombined lib w fl c symbol
  { fetches := log.fetches ++ [r.1],
    stderr := match r.1 with
      | some err => log.stderr ++ ["error: " ++ err]
      | none => log.stderr,
    sent := log.sent ++ r.2 }

/-- How far a run of the whales handler has come: it is waiting in the `select` of
the watch loop, it has returned, or it has panicked. -/
inductive Outcome where
  | polling
  | returned (err : GoError)
  | panicked (msg : String)
deriving DecidableEq, Repr

/-- The `for { select { ... } }` loop of watch mode over the events received: it is
still waiting when the events end without a signal, and returns nil at the first
signal. -/
def watchLoop (lib : Lib) (w : World) (fl : Flags) (c : Client) (symbol : String) :
    List Event → WatchLog → Outcome × WatchLog
  | [], log => (Outcome.polling, log)
  | Event.interrupt :: _, log => (Outcome.returned none, log)
  | Event.tick net :: rest, log =>
    watchLoop lib w fl c symbol rest
      (watchRefresh lib { w with httpDo := net } fl c symbol log)

/-- A 64-bit signed integer after wrap-around. -/
def wrapInt64 (x : Int) : Int := (x + 2 ^ 63) % 2 ^ 64 - 2 ^ 63

/-- The value of `time.Duration(whalesInterval) * time.Second`, in nanoseconds. -/
def tickerDuration (interval : Int) : Int := wrapInt64 (wrapInt64 interval * 1000000000)

/-- The handler of `whales [SYMBOL]`: how far it has come and what it has done after
the given events. Without `--watch` it receives no event. In watch mode
`time.NewTicker` comes first, and panics when the duration is not positive. -/
def whalesCmd (lib : Lib) (w : World) (fl : Flags) (args : List String)
    (events : List Event) : Outcome × WatchLog :=
  let baseURL := ResolveBaseURL lib w defaultBaseURL
  let c := NewClient baseURL ""
  let symbol :=
    if !fl.whalesAll ∧ args.length > 0 then lib.toUpper (args.getD 0 "") else ""
  if !fl.whalesWatch then
    let r := whalesCombined lib w fl c symbol
    (Outcome.returned r.1, { fetches := [r.1], stderr := [], sent := r.2 })
  else if tickerDuration fl.whalesInterval ≤ 0 then
    (Outcome.panicked "non-positive interval for NewTicker", ⟨[], [], []⟩)
  else
    watchLoop lib w fl c symbol events (watchRefresh lib w fl c symbol ⟨[], [], []⟩)

/-- The two states of the watch loop. -/
inductive WatchState where
  | Polling
  | Stopped
deriving DecidableEq, Repr

/-- The state of the watch loop in a run: polling while it waits, stopped once the
handler has returned; a run that has panicked is in neither. -/
def watchState (result : Outcome) : Option WatchState :=
  match result with
  | Outcome.polling => some WatchState.Polling
  | Outcome.returned _ => some WatchState.Stopped
  | Outcome.panicked _ => none

/-! ## Strings as bytes: `shortTime`, `TruncStr` and the rows of the history table

`len` and slicing count bytes, so these functions are modelled on the UTF-8 bytes of
a string. A slice expression out of range panics; `none` is the panic. -/

/-- The bytes of a Go string. -/
abbrev Bytes := List UInt8

/-- The UTF-8 bytes of a text. -/
def utf8 (s : String) : Bytes := s.data.flatMap String.utf8EncodeChar

/-- The slice expression `s[lo:hi]` of Go. -/
def goSlice {α : Type} (s : List α) (lo hi : Int) : Option (List α) :=
  if 0 ≤ lo ∧ lo ≤ hi ∧ hi ≤ (s.length : Int) then some ((s.take hi.toNat).drop lo.toNat)
  else none

/-- The function `shortTime` of cmd/prices.go. -/
def shortTime (ts : Bytes) : Option Bytes :=
  if (ts.length : Int) ≥ 16 then goSlice ts 0 16 else some ts

/-- The bytes of the string "…". -/
def ellipsis : Bytes := [0xE2, 0x80, 0xA6]

/-- The function `TruncStr` of internal/output.go. -/
def TruncStr (s : Bytes) (max : Int) : Option Bytes :=
  if (s.length : Int) ≤ max then some s
  else (goSlice s 0 (max - 1)).map (· ++ ellipsis)

/-- The rows that `priceHistory` puts in its table, given the price points of the
response and the value of `--limit`. -/
def historyRows {α : Type} (prices : List α) (pricesLimit : Int) : Option (List α) :=
  if pricesLimit > 0 ∧ (prices.length : Int) > pricesLimit then
    goSlice prices ((prices.length : Int) - pricesLimit) prices.length
  else some prices

/-- The errors with which a handler refuses to run without an API key. -/
def isAuthRequired (err : GoError) : Prop :=
  err = some "API key required — run: fti auth login" ∨
    err = some "no API key found — run: fti auth login"

/-! ## Sample libraries and worlds, to run the definitions on concrete inputs -/

/-- A library that knows a handful of inputs. -/
def sampleLib : Lib where
  joinConfigPath home := home ++ "/.fti/config.toml"
  tomlDecode data :=
    if data = "" then .ok ⟨"", ""⟩
    else if data = "api_key = \"Z\"" then .ok ⟨"Z", ""⟩
    else if data = "api_url = \"http://localhost:8000\"" then .ok ⟨"", "http://localhost:8000"⟩
    else if data = "api_key = \"ti_live_1\"\napi_url = \"http://localhost:8000\"\n" then
      .ok ⟨"ti_live_1", "http://localhost:8000"⟩
    else if data = "api_key = \"\"\napi_url = \"\"\n" then .ok ⟨"", ""⟩
    else .error "toml: expected key separator"
  statusText code :=
    if code = 404 then "Not Found" else if code = 500 then "Internal Server Error" else ""
  unmarshalDetail body :=
    if body = "\x7b\"detail\":\"token not found\"\x7d" then ("token not found", none)
    else if body = "\x7b\x7d" then ("", none)
    else ("", some "invalid character '<' looking for beginning of value")
  unmarshal _ body :=
    if body = "\x7b\x7d" then none
    else some "invalid character '<' looking for beginning of value"
  marshal _ := .ok "\x7b\x7d"
  encode q := String.intercalate "&" (q.map fun kv => kv.1 ++ "=" ++ String.join kv.2)
  newRequestErr _ _ := none
  toUpper := String.toUpper
  trimSpace := String.trim
  dir path := path.dropRight "/config.toml".length
  tomlEncode cfg :=
    .ok ("api_key = \"" ++ cfg.APIKey ++ "\"\napi_url = \"" ++ cfg.APIURL ++ "\"\n")

/-- A world with a home directory: the value of `FTI_API_KEY`, of `FTI_API_URL`, the
state of the settings file, and the reply the network gives to every request. -/
def sampleWorld (envKey envURL : String) (file : FileState)
    (reply : Except String Response) : World where
  home := .ok "/home/fan"
  getenv name :=
    if name = "FTI_API_KEY" then envKey else if name = "FTI_API_URL" then envURL else ""
  fs path := if path = "/home/fan/.fti/config.toml" then file else .missing
  httpDo _ := reply
  stdin := ["Ada\n", "ada@example.org\n", "\n", "\n"]
  mkdirAllErr _ := none
  createErr _ := none
  writeErr _ _ := none

/-- Flags as cobra leaves them when only `--api-key` may have been given. -/
def sampleFlags (apiKey : String) : Flags where
  apiKey := apiKey
  jsonOut := false
  signalsToken := ""
  signalsMinConf := 65 / 100
  signalsDays := 30
  signalsOutcome := ""
  signalsLimit := 50
  pricesHistory := false
  pricesDays := 7
  pricesInterval := "1h"
  pricesLimit := 0
  whalesAll := false
  whalesHours := 24
  whalesLimit := 50
  whalesMinValue := 50000
  whalesWatch := false
  whalesInterval := 30
  sportsToken := ""
  sportsDays := 14

/-- Flags of `whales --watch --interval <interval>`. -/
def watchFlags (interval : Int) : Flags :=
  { sampleFlags "" with whalesWatch := true, whalesInterval := interval }

/-- A reply with a status code and a body that reads without error. -/
def reply (status : Int) (body : String) : Except String Response :=
  .ok { StatusCode := status, Body := .ok body }

/-- Events of a watch: a tick whose fetch fails in the network, a tick whose fetch
succeeds, a signal, and a tick that comes too late. -/
def sampleEvents : List Event :=
  [Event.tick (fun _ => .error "dial tcp: connection refused"),
    Event.tick (fun _ => reply 200 "\x7b\x7d"), Event.interrupt,
    Event.tick (fun _ => reply 200 "\x7b\x7d")]

/-! ## Notions used to state the properties -/

/-- Specification of a precedence chain: the first non-empty string of a list, and
the empty string when there is none. -/
def firstNonEmpty : List String → String
  | [] => ""
  | s :: rest => if s ≠ "" then s else firstNonEmpty rest

/-- A string that ends in a point followed by exactly `n` decimal digits. -/
def HasDecimals (s : String) (n : Nat) : Prop :=
  ∃ whole frac : List Char,
    s.data = whole ++ '.' :: frac ∧ frac.length = n ∧ ∀ c ∈ frac, c.isDigit = true

/-- The rationals that are `float64` values: rounding leaves them as they are. The
arguments of the formatters stand for such values. -/
def IsFloat64 (x : ℚ) : Prop := roundF64 x = x

/-- A signed percentage with `n` decimals: a sign, at least one digit, a point, `n`
digits and the percent sign. -/
def IsSignedPercent (s : String) (n : Nat) : Prop :=
  ∃ (sign : Char) (whole frac : List Char),
    s.data = sign :: (whole ++ '.' :: (frac ++ ['%'])) ∧ (sign = '+' ∨ sign = '-') ∧
    whole ≠ [] ∧ (∀ c ∈ whole, c.isDigit = true) ∧
    frac.length = n ∧ ∀ c ∈ frac, c.isDigit = true

/-- The URL that `Client.Get` requests for a base URL, a path and query values. -/
def endpoint (lib : Lib) (baseURL path : String) (params : Values) : String :=
  if params.length > 0 then baseURL ++ path ++ "?" ++ lib.encode params else baseURL ++ path

/-- The headers every request of a client carries: `Accept`, the fixed `User-Agent`,
and `Authorization` with the bearer key exactly when the client has a key. -/
def hasClientHeaders (c : Client) (r : Request) : Prop :=
  valuesGet r.Header "Accept" = some ["application/json"] ∧
  valuesGet r.Header "User-Agent" = some ["fti-cli/1.0"] ∧
  valuesGet r.Header "Authorization" =
    (if c.APIKey ≠ "" then some ["Bearer " ++ c.APIKey] else none)

/-- The number of ticks the watch loop receives before the first signal. -/
def ticksBeforeInterrupt : List Event → Nat
  | [] => 0
  | Event.interrupt :: _ => 0
  | Event.tick _ :: rest => ticksBeforeInterrupt rest + 1

/-- Whether a signal is among the events. -/
def hasInterrupt : List Event → Bool
  | [] => false
  | Event.interrupt :: _ => true
  | Event.tick _ :: rest => hasInterrupt rest

/-- The lines that watch mode writes to standard error for the results of its
fetches: one line for each error. -/
def stderrOf (fetches : List GoError) : List String :=
  fetches.filterMap fun e => e.map fun m => "error: " ++ m

/-! ## Theorems -/

/-! ### buildQuery -/

theorem valuesGet_valuesSet (q : Values) (k v k' : String) :
    valuesGet (valuesSet q k v) k' = if k = k' then some [v] else valuesGet q k' := by
  induction q with
  | nil => simp [valuesSet, valuesGet]
  | cons e rest ih =>
    obtain ⟨k0, vs⟩ := e
    by_cases h0 : k0 = k
    · subst h0
      by_cases h1 : k0 = k' <;> simp [valuesSet, valuesGet, h1]
    · by_cases h1 : k0 = k'
      · subst h1
        have : ¬ k = k0 := fun h => h0 h.symm
        simp [valuesSet, valuesGet, h0, this]
      · simp [valuesSet, valuesGet, h0, h1, ih]

theorem mapGet_eq_none_of_not_mem (m : StrMap) (k : String) (h : k ∉ mapKeys m) :
    mapGet m k = none := by
  induction m with
  | nil => rfl
  | cons e rest ih =>
    obtain ⟨k0, v0⟩ := e
    simp only [mapKeys, List.map_cons, List.mem_cons, not_or] at h
    have hne : ¬ k0 = k := fun h' => h.1 h'.symm
    simp only [mapGet, hne, if_false]
    exact ih h.2

/-- What a key is bound to after the loop of `buildQuery` has run over `params`
starting from `q`. -/
theorem valuesGet_foldl_buildQueryStep (params : StrMap) (h : (mapKeys params).Nodup)
    (q : Values) (k : String) :
    valuesGet (params.foldl buildQueryStep q) k =
      match mapGet params k with
      | some v => if v ≠ "" then some [v] else valuesGet q k
      | none => valuesGet q k := by
  induction params generalizing q with
  | nil => rfl
  | cons e rest ih =>
    obtain ⟨k0, v0⟩ := e
    simp only [mapKeys, List.map_cons, List.nodup_cons] at h
    rw [List.foldl_cons, ih h.2]
    by_cases hk : k0 = k
    · subst hk
      rw [mapGet_eq_none_of_not_mem rest k0 h.1]
      by_cases hv : v0 = ""
      · simp [mapGet, buildQueryStep, hv]
      · simp [mapGet, buildQueryStep, hv, valuesGet_valuesSet]
    · have hstep : valuesGet (buildQueryStep q (k0, v0)) k = valuesGet q k := by
        unfold buildQueryStep
        split
        · simp [valuesGet_valuesSet, hk]
        · rfl
      simp only [mapGet, hk, if_false, hstep]

theorem valuesGet_buildQuery (params : StrMap) (h : (mapKeys params).Nodup) (k : String) :
    valuesGet (buildQuery params) k =
      match mapGet params k with
      | some v => if v ≠ "" then some [v] else none
      | none => none := by
  unfold buildQuery
  rw [valuesGet_foldl_buildQueryStep params h [] k]
  rfl

/-- C1: for every map of string parameters, the result of `buildQuery` contains a
key exactly when the map binds it to a non-empty string, the key then carries that
single value, and no value of the result is empty. -/
theorem buildQuery_spec (params : StrMap) (h : (mapKeys params).Nodup) (k : String) :
    ((valuesGet (buildQuery params) k).isSome ↔ ∃ v, mapGet params k = some v ∧ v ≠ "") ∧
    (∀ v, mapGet params k = some v → v ≠ "" → valuesGet (buildQuery params) k = some [v]) ∧
    (∀ vs, valuesGet (buildQuery params) k = some vs → "" ∉ vs) := by
  have key := valuesGet_buildQuery params h k
  refine ⟨?_, ?_, ?_⟩
  · rw [key]
    cases hm : mapGet params k with
    | none => simp
    | some v =>
      by_cases hv : v = ""
      · simp [hv]
      · simp [hv]
  · intro v hm hv
    rw [key, hm]
    simp [hv]
  · intro vs hvs
    rw [key] at hvs
    cases hm : mapGet params k with
    | none => simp [hm] at hvs
    | some v =>
      by_cases hv : v = ""
      · simp [hm, hv] at hvs
      · simp only [hm, ne_eq, hv, not_false_eq_true, if_true, Option.some.injEq] at hvs
        subst hvs
        simp only [List.mem_singleton]
        exact fun h' => hv h'.symm

theorem buildQuery_spec_witness :
    (mapKeys [("interval", "1h"), ("days", "")]).Nodup ∧
    (((valuesGet (buildQuery [("interval", "1h"), ("days", "")]) "days").isSome ↔
        ∃ v, mapGet [("interval", "1h"), ("days", "")] "days" = some v ∧ v ≠ "") ∧
      (∀ v, mapGet [("interval", "1h"), ("days", "")] "days" = some v → v ≠ "" →
        valuesGet (buildQuery [("interval", "1h"), ("days", "")]) "days" = some [v]) ∧
      (∀ vs, valuesGet (buildQuery [("interval", "1h"), ("days", "")]) "days" = some vs →
        "" ∉ vs)) ∧
    buildQuery [("interval", "1h"), ("days", "")] = [("interval", ["1h"])] :=
  ⟨by decide, buildQuery_spec [("interval", "1h"), ("days", "")] (by decide) "days", by decide⟩

/-! ### The settings store -/

/-- C2: when the settings file loads, `ResolveAPIKey` returns, with no error, the
first non-empty value among the override, `FTI_API_KEY` and the stored key, in
that order, and the empty string when all three are empty. -/
theorem ResolveAPIKey_precedence (lib : Lib) (w : World) (o : String) (cfg : Config)
    (hload : LoadConfig lib w = (cfg, none)) :
    ResolveAPIKey lib w o = (firstNonEmpty [o, w.getenv "FTI_API_KEY", cfg.APIKey], none) ∧
    (o = "" → w.getenv "FTI_API_KEY" = "" → cfg.APIKey = "" →
      ResolveAPIKey lib w o = ("", none)) := by
  have main : ResolveAPIKey lib w o =
      (firstNonEmpty [o, w.getenv "FTI_API_KEY", cfg.APIKey], none) := by
    unfold ResolveAPIKey
    by_cases ho : o = ""
    · by_cases he : w.getenv "FTI_API_KEY" = ""
      · by_cases hf : cfg.APIKey = ""
        · simp [firstNonEmpty, ho, he, hf, hload]
        · simp [firstNonEmpty, ho, he, hf, hload]
      · simp [firstNonEmpty, ho, he]
    · simp [firstNonEmpty, ho]
  refine ⟨main, ?_⟩
  intro ho he hf
  rw [main, ho, he, hf]
  rfl

theorem ResolveAPIKey_precedence_witness :
    LoadConfig sampleLib (sampleWorld "Y" "" (.content "api_key = \"Z\"") (reply 200 ""))
      = (⟨"Z", ""⟩, none) ∧
    (ResolveAPIKey sampleLib
        (sampleWorld "Y" "" (.content "api_key = \"Z\"") (reply 200 "")) "X"
        = (firstNonEmpty ["X",
            (sampleWorld "Y" "" (.content "api_key = \"Z\"") (reply 200 "")).getenv
              "FTI_API_KEY", (⟨"Z", ""⟩ : Config).APIKey], none) ∧
      ("X" = "" →
        (sampleWorld "Y" "" (.content "api_key = \"Z\"") (reply 200 "")).getenv
          "FTI_API_KEY" = "" → (⟨"Z", ""⟩ : Config).APIKey = "" →
        ResolveAPIKey sampleLib
          (sampleWorld "Y" "" (.content "api_key = \"Z\"") (reply 200 "")) "X"
          = ("", none))) ∧
    ResolveAPIKey sampleLib
      (sampleWorld "Y" "" (.content "api_key = \"Z\"") (reply 200 "")) "X" = ("X", none) ∧
    ResolveAPIKey sampleLib
      (sampleWorld "Y" "" (.content "api_key = \"Z\"") (reply 200 "")) "" = ("Y", none) ∧
    ResolveAPIKey sampleLib
      (sampleWorld "" "" (.content "api_key = \"Z\"") (reply 200 "")) "" = ("Z", none) ∧
    ResolveAPIKey sampleLib (sampleWorld "" "" .missing (reply 200 "")) "" = ("", none) :=
  ⟨by decide,
   ResolveAPIKey_precedence sampleLib
     (sampleWorld "Y" "" (.content "api_key = \"Z\"") (reply 200 "")) "X" ⟨"Z", ""⟩
     (by decide),
   by decide, by decide, by decide, by decide⟩

theorem LoadConfig_error_empty (lib : Lib) (w : World) (err : String)
    (h : (LoadConfig lib w).2 = some err) : (LoadConfig lib w).1 = ⟨"", ""⟩ := by
  unfold LoadConfig at h ⊢
  unfold configPath at h ⊢
  cases hh : w.home with
  | error e => simp
  | ok home =>
    simp only [hh] at h ⊢
    cases hf : w.fs (lib.joinConfigPath home) with
    | missing => simp
    | unreadable e => simp
    | content data =>
      simp only [hf] at h ⊢
      cases hd : lib.tomlDecode data with
      | error e => simp
      | ok cfg => simp [hd] at h

/-- C10: `ResolveBaseURL` returns `FTI_API_URL` when it is non-empty, else the stored
`api_url` when the settings file loads and holds a non-empty one, else the default;
a settings file that is missing or does not load counts as an empty `api_url`. The
function is total, so it never fails. -/
theorem ResolveBaseURL_precedence (lib : Lib) (w : World) (d : String) :
    (w.getenv "FTI_API_URL" ≠ "" → ResolveBaseURL lib w d = w.getenv "FTI_API_URL") ∧
    (∀ cfg, w.getenv "FTI_API_URL" = "" → LoadConfig lib w = (cfg, none) →
      ResolveBaseURL lib w d = firstNonEmpty [cfg.APIURL, d]) ∧
    (∀ home, w.getenv "FTI_API_URL" = "" → w.home = .ok home →
      w.fs (lib.joinConfigPath home) = .missing → ResolveBaseURL lib w d = d) ∧
    (∀ err, w.getenv "FTI_API_URL" = "" → (LoadConfig lib w).2 = some err →
      ResolveBaseURL lib w d = d) := by
  refine ⟨?_, ?_, ?_, ?_⟩
  · intro he
    simp [ResolveBaseURL, he]
  · intro cfg he hload
    by_cases hf : cfg.APIURL = ""
    · by_cases hd : d = "" <;> simp [ResolveBaseURL, firstNonEmpty, he, hload, hf, hd]
    · simp [ResolveBaseURL, firstNonEmpty, he, hload, hf]
  · intro home he hh hfs
    simp [ResolveBaseURL, LoadConfig, configPath, he, hh, hfs]
  · intro err he herr
    have h1 := LoadConfig_error_empty lib w err herr
    simp [ResolveBaseURL, he, h1]

theorem ResolveBaseURL_precedence_witness :
    (sampleWorld "" "http://env" (.content "api_url = \"http://localhost:8000\"")
        (reply 200 "")).getenv "FTI_API_URL" ≠ "" ∧
    ResolveBaseURL sampleLib
        (sampleWorld "" "http://env" (.content "api_url = \"http://localhost:8000\"")
          (reply 200 "")) defaultBaseURL
      = (sampleWorld "" "http://env" (.content "api_url = \"http://localhost:8000\"")
          (reply 200 "")).getenv "FTI_API_URL" ∧
    ResolveBaseURL sampleLib
      (sampleWorld "" "http://env" (.content "api_url = \"http://localhost:8000\"")
        (reply 200 "")) defaultBaseURL = "http://env" ∧
    ResolveBaseURL sampleLib
      (sampleWorld "" "" (.content "api_url = \"http://localhost:8000\"") (reply 200 ""))
      defaultBaseURL = "http://localhost:8000" ∧
    ResolveBaseURL sampleLib (sampleWorld "" "" .missing (reply 200 "")) defaultBaseURL
      = defaultBaseURL ∧
    ResolveBaseURL sampleLib (sampleWorld "" "" (.content "api_url = ") (reply 200 ""))
      defaultBaseURL = defaultBaseURL :=
  ⟨by decide,
   (ResolveBaseURL_precedence sampleLib
      (sampleWorld "" "http://env" (.content "api_url = \"http://localhost:8000\"")
        (reply 200 "")) defaultBaseURL).1 (by decide),
   by decide, by decide, by decide, by decide⟩

/-! ### The API client -/

theorem Client_do_sent (lib : Lib) (w : World) (c : Client) (req : Request) :
    (Client.do lib w c req).2 = [c.prepare req] := by
  unfold Client.do
  cases hd : w.httpDo (c.prepare req) with
  | error e => simp only [hd]
  | ok resp =>
    cases hb : resp.Body with
    | error e => simp only [hd, hb]
    | ok body =>
      simp only [hd, hb]
      split_ifs <;> rfl

/-- The errors of `Client.do` begin with one of three fixed texts. -/
theorem Client_do_error_form (lib : Lib) (w : World) (c : Client) (req : Request)
    (err : String) (h : (Client.do lib w c req).1.2 = some err) :
    (∃ e, err = "request failed: " ++ e) ∨ (∃ e, err = "reading response: " ++ e) ∨
      (∃ e, err = "API error " ++ e) := by
  unfold Client.do at h
  cases hd : w.httpDo (c.prepare req) with
  | error e =>
    simp only [hd, Option.some.injEq] at h
    exact Or.inl ⟨e, h.symm⟩
  | ok resp =>
    cases hb : resp.Body with
    | error e =>
      simp only [hd, hb, Option.some.injEq] at h
      exact Or.inr (Or.inl ⟨e, h.symm⟩)
    | ok body =>
      simp only [hd, hb] at h
      refine Or.inr (Or.inr ?_)
      split at h
      · split at h
        · simp only [Option.some.injEq] at h
          exact ⟨_, by rw [← h, String.append_assoc, String.append_assoc]⟩
        · simp only [Option.some.injEq] at h
          exact ⟨_, by rw [← h, String.append_assoc, String.append_assoc]⟩
      · simp at h

theorem Client_do_below_400 (lib : Lib) (w : World) (c : Client) (req : Request)
    (resp : Response) (body : String)
    (hsend : w.httpDo (c.prepare req) = .ok resp) (hbody : resp.Body = .ok body)
    (hs : resp.StatusCode < 400) : (Client.do lib w c req).1 = (some body, none) := by
  have hs' : ¬ resp.StatusCode ≥ 400 := not_le.mpr hs
  simp only [Client.do, hsend, hbody]
  rw [if_neg hs']

/-- Whatever the library and the network, a body that reads, comes with a status
below 400 and does not decode into the target makes `Client.Get` return no bytes and
a "parsing response" error. -/
theorem Client_Get_decode_failure (lib : Lib) (w : World) (c : Client) (path : String)
    (params : Values) (shape : Shape) (req : Request) (resp : Response) (body e : String)
    (hreq : newRequest lib "GET"
      (if params.length > 0 then c.BaseURL ++ path ++ "?" ++ lib.encode params
        else c.BaseURL ++ path) none = (some req, none))
    (hsend : w.httpDo (c.prepare req) = .ok resp) (hbody : resp.Body = .ok body)
    (hstatus : resp.StatusCode < 400) (hdec : lib.unmarshal shape body = some e) :
    Client.Get lib w c path params (some shape) =
      ((none, some ("parsing response: " ++ e)), [c.prepare req]) := by
  have hdo := Client_do_below_400 lib w c req resp body hsend hbody hstatus
  have hsent := Client_do_sent lib w c req
  unfold Client.Get
  simp only [hreq]
  rcases hres : Client.do lib w c req with ⟨⟨b, err⟩, sent⟩
  rw [hres] at hdo hsent
  simp only [Prod.mk.injEq] at hdo
  simp only at hsent
  obtain ⟨hb, herr⟩ := hdo
  subst hb herr hsent
  simp [hdec]

theorem Client_Get_decode_failure_witness :
    newRequest sampleLib "GET"
      (if ([] : Values).length > 0 then
        (NewClient defaultBaseURL "").BaseURL ++ "/api/tokens" ++ "?" ++ sampleLib.encode []
        else (NewClient defaultBaseURL "").BaseURL ++ "/api/tokens") none
      = (some ⟨"GET", defaultBaseURL ++ "/api/tokens", [], none⟩, none) ∧
    Client.Get sampleLib (sampleWorld "" "" .missing (reply 200 "<html>"))
        (NewClient defaultBaseURL "") "/api/tokens" [] (some Shape.authMe) =
      ((none, some ("parsing response: "
          ++ "invalid character '<' looking for beginning of value")),
        [(NewClient defaultBaseURL "").prepare
          ⟨"GET", defaultBaseURL ++ "/api/tokens", [], none⟩]) :=
  ⟨by decide,
   Client_Get_decode_failure sampleLib (sampleWorld "" "" .missing (reply 200 "<html>"))
     (NewClient defaultBaseURL "") "/api/tokens" [] Shape.authMe
     ⟨"GET", defaultBaseURL ++ "/api/tokens", [], none⟩ ⟨200, .ok "<html>"⟩ "<html>"
     "invalid character '<' looking for beginning of value"
     (by decide) rfl rfl (by decide) (by decide)⟩

/-- C3: a response with status 400 or more makes `Client.do` fail with an error that
carries the status and a message: the `detail` of the body when the body decodes and
the detail is non-empty, the standard text of the status otherwise. Below 400 the body
is returned and no error is produced. -/
theorem Client_do_status (lib : Lib) (w : World) (c : Client) (req : Request)
    (resp : Response) (body : String)
    (hsend : w.httpDo (c.prepare req) = .ok resp) (hbody : resp.Body = .ok body) :
    (resp.StatusCode ≥ 400 →
      (∀ d, lib.unmarshalDetail body = (d, none) → d ≠ "" →
        (Client.do lib w c req).1 =
          (none, some ("API error " ++ toString resp.StatusCode ++ ": " ++ d))) ∧
      ((lib.unmarshalDetail body).2 ≠ none ∨ (lib.unmarshalDetail body).1 = "" →
        (Client.do lib w c req).1 =
          (none, some ("API error " ++ toString resp.StatusCode ++ ": "
            ++ lib.statusText resp.StatusCode)))) ∧
    (resp.StatusCode < 400 → (Client.do lib w c req).1 = (some body, none)) := by
  refine ⟨fun hs => ⟨?_, ?_⟩, ?_⟩
  · intro d hd hne
    simp [Client.do, hsend, hbody, hs, hd, hne]
  · intro h
    have hcond : ¬ ((lib.unmarshalDetail body).2 = none ∧ (lib.unmarshalDetail body).1 ≠ "") := by
      rintro ⟨h1, h2⟩
      rcases h with h | h
      · exact h h1
      · exact h2 h
    simp [Client.do, hsend, hbody, hs, hcond]
  · intro hs
    have hs' : ¬ resp.StatusCode ≥ 400 := not_le.mpr hs
    simp only [Client.do, hsend, hbody]
    rw [if_neg hs']

theorem Client_do_status_witness :
    (sampleWorld "" "" .missing (reply 404 "\x7b\"detail\":\"token not found\"\x7d")).httpDo
        ((NewClient defaultBaseURL "").prepare ⟨"GET", "/api/tokens/PSG", [], none⟩)
      = .ok ⟨404, .ok "\x7b\"detail\":\"token not found\"\x7d"⟩ ∧
    (Client.do sampleLib
        (sampleWorld "" "" .missing (reply 404 "\x7b\"detail\":\"token not found\"\x7d"))
        (NewClient defaultBaseURL "") ⟨"GET", "/api/tokens/PSG", [], none⟩).1
      = (none, some ("API error " ++ toString (404 : Int) ++ ": " ++ "token not found")) ∧
    (Client.do sampleLib
        (sampleWorld "" "" .missing (reply 404 "\x7b\"detail\":\"token not found\"\x7d"))
        (NewClient defaultBaseURL "") ⟨"GET", "/api/tokens/PSG", [], none⟩).1
      = (none, some "API error 404: token not found") ∧
    (Client.do sampleLib (sampleWorld "" "" .missing (reply 404 "<html>"))
        (NewClient defaultBaseURL "") ⟨"GET", "/api/tokens/PSG", [], none⟩).1
      = (none, some "API error 404: Not Found") :=
  ⟨rfl,
   ((Client_do_status sampleLib
      (sampleWorld "" "" .missing (reply 404 "\x7b\"detail\":\"token not found\"\x7d"))
      (NewClient defaultBaseURL "") ⟨"GET", "/api/tokens/PSG", [], none⟩
      ⟨404, .ok "\x7b\"detail\":\"token not found\"\x7d"⟩
      "\x7b\"detail\":\"token not found\"\x7d" rfl rfl).1 (by decide)).1
      "token not found" (by decide) (by decide),
   by decide, by decide⟩

/-- C4, on the code: a 200 response whose body does not decode makes `Client.Get` and
`Client.Post` fail with a "parsing response" error and return no bytes at all, while
the same response read with a nil target returns the body. -/
theorem Client_Get_decode_failure_drops_body :
    (Client.Get sampleLib (sampleWorld "" "" .missing (reply 200 "<html>"))
        (NewClient defaultBaseURL "") "/api/tokens" [] (some Shape.authMe)).1
      = (none, some "parsing response: invalid character '<' looking for beginning of value") ∧
    (Client.Post sampleLib (sampleWorld "" "" .missing (reply 200 "<html>"))
        (NewClient defaultBaseURL "") "/api/v1/auth/register" [] (some Shape.authRegister)).1
      = (none, some "parsing response: invalid character '<' looking for beginning of value") ∧
    (Client.Get sampleLib (sampleWorld "" "" .missing (reply 200 "<html>"))
        (NewClient defaultBaseURL "") "/api/tokens" [] none).1
      = (some "<html>", none) := by
  refine ⟨by decide, by decide, by decide⟩

/-! ### Handlers that need an API key -/

/-- C5: when the API key resolves to the empty string, the handlers of
`signals active`, `signals history` and `auth me` return an auth-required error and
send no request. -/
theorem auth_required_without_key (lib : Lib) (w : World) (fl : Flags)
    (hkey : ResolveAPIKey lib w fl.apiKey = ("", none)) :
    (isAuthRequired (signalsActive lib w fl).1 ∧ (signalsActive lib w fl).2 = []) ∧
    (isAuthRequired (signalsHistory lib w fl).1 ∧ (signalsHistory lib w fl).2 = []) ∧
    (isAuthRequired (authMe lib w fl).1 ∧ (authMe lib w fl).2 = []) := by
  refine ⟨⟨?_, ?_⟩, ⟨?_, ?_⟩, ⟨?_, ?_⟩⟩
  · simp [signalsActive, hkey, isAuthRequired]
  · simp [signalsActive, hkey]
  · simp [signalsHistory, hkey, isAuthRequired]
  · simp [signalsHistory, hkey]
  · simp [authMe, hkey, isAuthRequired]
  · simp [authMe, hkey]

theorem auth_required_without_key_witness :
    ResolveAPIKey sampleLib (sampleWorld "" "" .missing (reply 200 "\x7b\x7d"))
      (sampleFlags "").apiKey = ("", none) ∧
    ((isAuthRequired
        (signalsActive sampleLib (sampleWorld "" "" .missing (reply 200 "\x7b\x7d"))
          (sampleFlags "")).1 ∧
      (signalsActive sampleLib (sampleWorld "" "" .missing (reply 200 "\x7b\x7d"))
        (sampleFlags "")).2 = []) ∧
     (isAuthRequired
        (signalsHistory sampleLib (sampleWorld "" "" .missing (reply 200 "\x7b\x7d"))
          (sampleFlags "")).1 ∧
      (signalsHistory sampleLib (sampleWorld "" "" .missing (reply 200 "\x7b\x7d"))
        (sampleFlags "")).2 = []) ∧
     (isAuthRequired
        (authMe sampleLib (sampleWorld "" "" .missing (reply 200 "\x7b\x7d"))
          (sampleFlags "")).1 ∧
      (authMe sampleLib (sampleWorld "" "" .missing (reply 200 "\x7b\x7d"))
        (sampleFlags "")).2 = [])) :=
  ⟨by decide,
   auth_required_without_key sampleLib (sampleWorld "" "" .missing (reply 200 "\x7b\x7d"))
     (sampleFlags "") (by decide)⟩

/-- With a key, `signals active` goes to the network: one GET that carries the key as
a bearer token. -/
theorem signalsActive_with_key_sends :
    signalsActive sampleLib (sampleWorld "" "" .missing (reply 200 "\x7b\x7d"))
        (sampleFlags "K") =
      (none,
       [{ Method := "GET",
          URL := "https://web-production-ad7c4.up.railway.app"
            ++ "/api/v1/signals/active?min_confidence=0.65",
          Header := [("Authorization", ["Bearer K"]), ("Accept", ["application/json"]),
            ("User-Agent", ["fti-cli/1.0"])],
          Body := none }]) := by
  decide!

/-- The key resolves to the empty string exactly when there is no flag, no
`FTI_API_KEY` and the settings file loads without a key. -/
theorem ResolveAPIKey_eq_empty_iff (lib : Lib) (w : World) (o : String) :
    ResolveAPIKey lib w o = ("", none) ↔
      o = "" ∧ w.getenv "FTI_API_KEY" = "" ∧
        (LoadConfig lib w).2 = none ∧ (LoadConfig lib w).1.APIKey = "" := by
  unfold ResolveAPIKey
  by_cases ho : o = ""
  · by_cases he : w.getenv "FTI_API_KEY" = ""
    · rcases hl : LoadConfig lib w with ⟨cfg, _ | err⟩
      · simp [ho, he]
      · simp [ho, he]
    · simp [ho, he]
  · simp [ho]

/-! ### auth register -/

theorem not_isAuthRequired_of_form (err : GoError)
    (h : err = none ∨ ∃ e, err = some ("request failed: " ++ e) ∨
      err = some ("reading response: " ++ e) ∨ err = some ("API error " ++ e) ∨
      err = some ("parsing response: " ++ e)) : ¬ isAuthRequired err := by
  unfold isAuthRequired
  rcases h with h | ⟨e, h | h | h | h⟩ <;> subst h <;>
    simp [String.ext_iff]

/-- C6, as the code has it: `auth register` needs no API key. When the request can be
built it sends exactly one POST to the register endpoint, without an Authorization
header, and the error it returns is never an auth-required error. -/
theorem authRegister_needs_no_key (lib : Lib) (w : World)
    (hm : ∀ p, ∃ d, lib.marshal p = .ok d)
    (hn : lib.newRequestErr "POST"
      (ResolveBaseURL lib w defaultBaseURL ++ "/api/v1/auth/register") = none) :
    ¬ isAuthRequired (authRegister lib w).1 ∧
    ∃ data, (authRegister lib w).2 =
      [{ Method := "POST",
         URL := ResolveBaseURL lib w defaultBaseURL ++ "/api/v1/auth/register",
         Header := [("Content-Type", ["application/json"]), ("Accept", ["application/json"]),
           ("User-Agent", ["fti-cli/1.0"])],
         Body := some data }] := by
  obtain ⟨data, hd⟩ := hm [("name", lib.trimSpace (w.stdin.getD 0 "")),
    ("email", lib.trimSpace (w.stdin.getD 1 "")),
    ("description", lib.trimSpace (w.stdin.getD 2 "")),
    ("scope", if lib.trimSpace (w.stdin.getD 3 "") = "" then "read"
      else lib.trimSpace (w.stdin.getD 3 ""))]
  have hsent := Client_do_sent lib w (NewClient (ResolveBaseURL lib w defaultBaseURL) "")
    (Request.setHeader ⟨"POST", ResolveBaseURL lib w defaultBaseURL ++ "/api/v1/auth/register",
      [], some data⟩ "Content-Type" "application/json")
  have hform := Client_do_error_form lib w (NewClient (ResolveBaseURL lib w defaultBaseURL) "")
    (Request.setHeader ⟨"POST", ResolveBaseURL lib w defaultBaseURL ++ "/api/v1/auth/register",
      [], some data⟩ "Content-Type" "application/json")
  have hprep : (NewClient (ResolveBaseURL lib w defaultBaseURL) "").prepare
      (Request.setHeader ⟨"POST", ResolveBaseURL lib w defaultBaseURL ++ "/api/v1/auth/register",
        [], some data⟩ "Content-Type" "application/json") =
      { Method := "POST",
        URL := ResolveBaseURL lib w defaultBaseURL ++ "/api/v1/auth/register",
        Header := [("Content-Type", ["application/json"]), ("Accept", ["application/json"]),
          ("User-Agent", ["fti-cli/1.0"])],
        Body := some data } := by
    simp [Client.prepare, NewClient, Request.setHeader, valuesSet]
  rw [hprep] at hsent
  unfold authRegister Client.Post
  simp only [hd, newRequest, NewClient, hn]
  simp only [NewClient] at hsent hform
  rcases hdo : Client.do lib w ⟨ResolveBaseURL lib w defaultBaseURL, "", 30⟩
    (Request.setHeader ⟨"POST", ResolveBaseURL lib w defaultBaseURL ++ "/api/v1/auth/register",
      [], some data⟩ "Content-Type" "application/json") with ⟨⟨body, err⟩, sent⟩
  rw [hdo] at hsent hform
  simp only at hsent hform
  subst hsent
  cases err with
  | some e =>
    refine ⟨?_, data, rfl⟩
    apply not_isAuthRequired_of_form
    rcases hform e rfl with ⟨x, hx⟩ | ⟨x, hx⟩ | ⟨x, hx⟩
    · exact Or.inr ⟨x, Or.inl (by rw [hx])⟩
    · exact Or.inr ⟨x, Or.inr (Or.inl (by rw [hx]))⟩
    · exact Or.inr ⟨x, Or.inr (Or.inr (Or.inl (by rw [hx])))⟩
  | none =>
    cases hu : lib.unmarshal Shape.authRegister (body.getD "") with
    | some e =>
      refine ⟨?_, data, by simp [hu]⟩
      apply not_isAuthRequired_of_form
      exact Or.inr ⟨e, Or.inr (Or.inr (Or.inr (by simp [hu])))⟩
    | none =>
      refine ⟨?_, data, by simp [hu]⟩
      apply not_isAuthRequired_of_form
      exact Or.inl (by simp [hu])

theorem authRegister_needs_no_key_witness :
    (∀ p, ∃ d, sampleLib.marshal p = .ok d) ∧
    sampleLib.newRequestErr "POST"
      (ResolveBaseURL sampleLib (sampleWorld "" "" .missing (reply 500 "")) defaultBaseURL
        ++ "/api/v1/auth/register") = none ∧
    (¬ isAuthRequired (authRegister sampleLib (sampleWorld "" "" .missing (reply 500 ""))).1 ∧
      ∃ data, (authRegister sampleLib (sampleWorld "" "" .missing (reply 500 ""))).2 =
        [{ Method := "POST",
           URL := ResolveBaseURL sampleLib (sampleWorld "" "" .missing (reply 500 ""))
             defaultBaseURL ++ "/api/v1/auth/register",
           Header := [("Content-Type", ["application/json"]),
             ("Accept", ["application/json"]), ("User-Agent", ["fti-cli/1.0"])],
           Body := some data }]) ∧
    (authRegister sampleLib (sampleWorld "" "" .missing (reply 500 ""))).1
      = some "API error 500: Internal Server Error" :=
  ⟨fun _ => ⟨_, rfl⟩, rfl,
   authRegister_needs_no_key sampleLib (sampleWorld "" "" .missing (reply 500 ""))
     (fun _ => ⟨_, rfl⟩) rfl,
   by decide⟩

/-- C6, the claim on the code: with no API key anywhere, `auth register` returns no
error and has sent a request. -/
theorem authRegister_not_fail_fast :
    ResolveAPIKey sampleLib (sampleWorld "" "" .missing (reply 200 "\x7b\x7d")) ""
      = ("", none) ∧
    authRegister sampleLib (sampleWorld "" "" .missing (reply 200 "\x7b\x7d")) =
      (none,
       [{ Method := "POST",
          URL := "https://web-production-ad7c4.up.railway.app/api/v1/auth/register",
          Header := [("Content-Type", ["application/json"]), ("Accept", ["application/json"]),
            ("User-Agent", ["fti-cli/1.0"])],
          Body := some "\x7b\x7d" }]) ∧
    ¬ (isAuthRequired
        (authRegister sampleLib (sampleWorld "" "" .missing (reply 200 "\x7b\x7d"))).1 ∧
      (authRegister sampleLib (sampleWorld "" "" .missing (reply 200 "\x7b\x7d"))).2 = []) := by
  have h : authRegister sampleLib (sampleWorld "" "" .missing (reply 200 "\x7b\x7d")) =
      (none,
       [{ Method := "POST",
          URL := "https://web-production-ad7c4.up.railway.app/api/v1/auth/register",
          Header := [("Content-Type", ["application/json"]), ("Accept", ["application/json"]),
            ("User-Agent", ["fti-cli/1.0"])],
          Body := some "\x7b\x7d" }]) := by decide
  refine ⟨by decide, h, ?_⟩
  rw [h]
  simp

/-! ### The formatters -/

theorem fracDigits_length (n k : Nat) : (fracDigits n k).length = n := by
  induction n generalizing k with
  | zero => rfl
  | succ n ih => simp [fracDigits, ih]

theorem digitChar_isDigit (d : Nat) : (digitChar d).isDigit = true := by
  have h : d % 10 < 10 := Nat.mod_lt _ (by decide)
  unfold digitChar
  generalize d % 10 = r at h
  interval_cases r <;> decide

theorem fracDigits_isDigit (n k : Nat) : ∀ c ∈ fracDigits n k, c.isDigit = true := by
  induction n generalizing k with
  | zero => simp [fracDigits]
  | succ n ih =>
    intro c hc
    simp only [fracDigits, List.mem_append, List.mem_singleton] at hc
    rcases hc with hc | hc
    · exact ih _ c hc
    · rw [hc]
      exact digitChar_isDigit k

/-- The rounding of `fmtFixed` picks a nearest integer: it is off by at most a half. -/
theorem roundHalfEven_nearest (a b : Nat) (hb : 0 < b) :
    2 * (roundHalfEven a b * b) ≤ 2 * a + b ∧ 2 * a ≤ 2 * (roundHalfEven a b * b) + b := by
  have hdiv : b * (a / b) + a % b = a := Nat.div_add_mod a b
  have hmod : a % b < b := Nat.mod_lt a hb
  have hmul : a / b * b = b * (a / b) := Nat.mul_comm _ _
  unfold roundHalfEven
  simp only
  split_ifs <;> simp only [Nat.add_mul, Nat.one_mul, hmul] <;> constructor <;> omega

/-- With a positive precision `fmtFixed` ends in a point and that many digits. -/
theorem fmtFixed_hasDecimals (prec : Nat) (plus : Bool) (x : ℚ) (h : 0 < prec) :
    HasDecimals (fmtFixed prec plus x) prec := by
  have hp : ¬ prec = 0 := Nat.pos_iff_ne_zero.mp h
  unfold fmtFixed HasDecimals
  simp only [hp, if_false]
  refine ⟨((if x < 0 then "-" else if plus = true then "+" else "") ++
      toString (roundHalfEven (x.num.natAbs * 10 ^ prec) x.den / 10 ^ prec)).data,
    fracDigits prec (roundHalfEven (x.num.natAbs * 10 ^ prec) x.den % 10 ^ prec), ?_, ?_, ?_⟩
  · simp only [String.data_append, List.append_assoc, List.singleton_append]
  · exact fracDigits_length _ _
  · exact fracDigits_isDigit _ _

theorem hasDecimals_append_left (a s : String) (n : Nat) (h : HasDecimals s n) :
    HasDecimals (a ++ s) n := by
  obtain ⟨whole, frac, h1, h2, h3⟩ := h
  exact ⟨a.data ++ whole, frac, by simp [String.data_append, h1], h2, h3⟩

/-- With the sign forced, the text of `fmtFixed` begins with a sign. -/
theorem fmtFixed_plus_head (prec : Nat) (x : ℚ) :
    ∃ rest, (fmtFixed prec true x).data = '-' :: rest ∨
      (fmtFixed prec true x).data = '+' :: rest := by
  unfold fmtFixed
  by_cases hx : x < 0 <;> by_cases hp : prec = 0 <;>
    simp [hx, hp, String.data_append]

theorem dollar_ne_dash (s : String) : "$" ++ s ≠ "—" := by
  intro h
  have := congrArg String.data h
  simp [String.data_append] at this

theorem signed_percent_ne_dash (prec : Nat) (x : ℚ) : fmtFixed prec true x ++ "%" ≠ "—" := by
  intro h
  have h' := congrArg String.data h
  obtain ⟨rest, hr | hr⟩ := fmtFixed_plus_head prec x <;>
    simp [String.data_append, hr] at h'

/-- C7: `FormatPrice` renders zero as a dash, and a positive price as a dollar sign
followed by the price with six decimals below 0.01, four decimals from 0.01 up to
1, and three decimals from 1 on. -/
theorem FormatPrice_spec (p : ℚ) :
    (FormatPrice 0).text = "—" ∧
    (0 < p → p < 1 / 100 →
      FormatPrice p = plain ("$" ++ fmtFixed 6 false p) ∧
        HasDecimals (FormatPrice p).text 6) ∧
    (1 / 100 ≤ p → p < 1 →
      FormatPrice p = plain ("$" ++ fmtFixed 4 false p) ∧
        HasDecimals (FormatPrice p).text 4) ∧
    (1 ≤ p →
      FormatPrice p = plain ("$" ++ fmtFixed 3 false p) ∧
        HasDecimals (FormatPrice p).text 3) := by
  refine ⟨by simp [FormatPrice, Color.Sprint], ?_, ?_, ?_⟩
  · intro h0 h1
    have e : FormatPrice p = plain ("$" ++ fmtFixed 6 false p) := by
      unfold FormatPrice
      rw [if_neg (ne_of_gt h0), if_pos h1]
    refine ⟨e, ?_⟩
    rw [e]
    exact hasDecimals_append_left _ _ _ (fmtFixed_hasDecimals 6 false p (by decide))
  · intro h0 h1
    have hp : p ≠ 0 := ne_of_gt (lt_of_lt_of_le (by norm_num) h0)
    have e : FormatPrice p = plain ("$" ++ fmtFixed 4 false p) := by
      unfold FormatPrice
      rw [if_neg hp, if_neg (not_lt.mpr h0), if_pos h1]
    refine ⟨e, ?_⟩
    rw [e]
    exact hasDecimals_append_left _ _ _ (fmtFixed_hasDecimals 4 false p (by decide))
  · intro h1
    have hp : p ≠ 0 := ne_of_gt (lt_of_lt_of_le (by norm_num) h1)
    have h2 : ¬ p < 1 / 100 := not_lt.mpr (le_trans (by norm_num) h1)
    have e : FormatPrice p = plain ("$" ++ fmtFixed 3 false p) := by
      unfold FormatPrice
      rw [if_neg hp, if_neg h2, if_neg (not_lt.mpr h1)]
    refine ⟨e, ?_⟩
    rw [e]
    exact hasDecimals_append_left _ _ _ (fmtFixed_hasDecimals 3 false p (by decide))

theorem FormatPrice_spec_witness :
    (0 : ℚ) < 1 / 200 ∧ (1 / 200 : ℚ) < 1 / 100 ∧
    (FormatPrice (1 / 200) = plain ("$" ++ fmtFixed 6 false (1 / 200)) ∧
      HasDecimals (FormatPrice (1 / 200)).text 6) ∧
    FormatPrice (1 / 200) = plain "$0.005000" ∧
    FormatPrice (1 / 4) = plain "$0.2500" ∧
    FormatPrice (2469 / 2) = plain "$1234.500" :=
  ⟨by norm_num, by norm_num,
   (FormatPrice_spec (1 / 200)).2.1 (by norm_num) (by norm_num),
   by decide!, by decide!, by decide!⟩

theorem natDigitChar_isDigit (n : Nat) (h : n < 10) : (Nat.digitChar n).isDigit = true := by
  interval_cases n <;> decide

theorem toDigitsCore_isDigit (fuel n : Nat) (ds : List Char)
    (h : ∀ c ∈ ds, c.isDigit = true) :
    ∀ c ∈ Nat.toDigitsCore 10 fuel n ds, c.isDigit = true := by
  induction fuel generalizing n ds with
  | zero => simpa [Nat.toDigitsCore] using h
  | succ fuel ih =>
    have hd : (Nat.digitChar (n % 10)).isDigit = true :=
      natDigitChar_isDigit _ (Nat.mod_lt _ (by decide))
    have hds : ∀ c ∈ Nat.digitChar (n % 10) :: ds, c.isDigit = true := by
      intro c hc
      rcases List.mem_cons.mp hc with hc | hc
      · rw [hc]
        exact hd
      · exact h c hc
    unfold Nat.toDigitsCore
    simp only
    split
    · exact hds
    · exact ih _ _ hds

theorem toDigitsCore_ne_nil (fuel n : Nat) (ds : List Char) (h : ds ≠ [] ∨ 0 < fuel) :
    Nat.toDigitsCore 10 fuel n ds ≠ [] := by
  induction fuel generalizing n ds with
  | zero =>
    rcases h with h | h
    · simpa [Nat.toDigitsCore] using h
    · exact absurd h (by decide)
  | succ fuel ih =>
    unfold Nat.toDigitsCore
    simp only
    split
    · exact List.cons_ne_nil _ _
    · exact ih _ _ (Or.inl (List.cons_ne_nil _ _))

/-- The decimal numeral of a natural number is a non-empty string of digits. -/
theorem toString_nat_digits (n : Nat) :
    (toString n).data ≠ [] ∧ ∀ c ∈ (toString n).data, c.isDigit = true :=
  ⟨toDigitsCore_ne_nil _ _ _ (Or.inr (Nat.succ_pos _)),
   toDigitsCore_isDigit _ _ _ (by simp)⟩

/-- The text of `fmtFixed` with a positive precision: the sign, the digits of the
whole part, a point, and `prec` digits. -/
theorem fmtFixed_data (prec : Nat) (plus : Bool) (x : ℚ) (h : 0 < prec) :
    ∃ whole frac : List Char,
      (fmtFixed prec plus x).data =
        (if x < 0 then "-" else if plus then "+" else "").data ++ (whole ++ '.' :: frac) ∧
      whole ≠ [] ∧ (∀ c ∈ whole, c.isDigit = true) ∧
      frac.length = prec ∧ ∀ c ∈ frac, c.isDigit = true := by
  have hp : ¬ prec = 0 := Nat.pos_iff_ne_zero.mp h
  refine ⟨(toString (roundHalfEven (x.num.natAbs * 10 ^ prec) x.den / 10 ^ prec)).data,
    fracDigits prec (roundHalfEven (x.num.natAbs * 10 ^ prec) x.den % 10 ^ prec),
    ?_, (toString_nat_digits _).1, (toString_nat_digits _).2,
    fracDigits_length _ _, fracDigits_isDigit _ _⟩
  unfold fmtFixed
  simp only [hp, if_false, String.data_append, List.append_assoc, List.singleton_append]

/-- The text of `%+.Nf` followed by a percent sign is a signed percentage. -/
theorem fmtSigned_percent (prec : Nat) (y : Float64) (h : 0 < prec) :
    IsSignedPercent (fmtSigned prec y ++ "%") prec := by
  cases y with
  | negZero =>
    obtain ⟨whole, frac, hd, h1, h2, h3, h4⟩ := fmtFixed_data prec false 0 h
    refine ⟨'-', whole, frac, ?_, Or.inr rfl, h1, h2, h3, h4⟩
    simp only [fmtSigned, String.data_append, hd]
    simp
  | num q =>
    obtain ⟨whole, frac, hd, h1, h2, h3, h4⟩ := fmtFixed_data prec true q h
    by_cases hq : q < 0
    · refine ⟨'-', whole, frac, ?_, Or.inr rfl, h1, h2, h3, h4⟩
      simp only [fmtSigned, String.data_append, hd, hq, if_true]
      simp
    · refine ⟨'+', whole, frac, ?_, Or.inl rfl, h1, h2, h3, h4⟩
      simp only [fmtSigned, String.data_append, hd, hq, if_false, if_true]
      simp

theorem isSignedPercent_ne_dash (s : String) (n : Nat) (h : IsSignedPercent s n) :
    s ≠ "—" := by
  intro hs
  obtain ⟨sign, whole, frac, hd, hsign, _⟩ := h
  rw [hs] at hd
  have hc : '—' = sign := by
    have := congrArg List.head? hd
    simpa using this
  rcases hsign with h1 | h1 <;> rw [h1] at hc <;> exact absurd hc (by decide)

theorem log2Fuel_eq (fuel n : Nat) (h : n ≤ fuel) : log2Fuel fuel n = Nat.log2 n := by
  induction fuel generalizing n with
  | zero =>
    have hn : n = 0 := by omega
    subst hn
    rw [Nat.log2]
    simp [log2Fuel]
  | succ k ih =>
    rw [Nat.log2]
    by_cases h2 : 2 ≤ n
    · have hk : n / 2 ≤ k := by omega
      simp [log2Fuel, h2, ih (n / 2) hk]
    · simp [log2Fuel, h2]

theorem ilog2_eq (n : Nat) : ilog2 n = Nat.log2 n := log2Fuel_eq n n (le_refl n)

/-- The rounding to `float64` on known values: 0.1, 1.15 and 1.05 are not `float64`
values and round to the familiar neighbours, 1.25 is one; above `2 ^ 53` halves go
to the even mantissa; half of the smallest subnormal rounds to zero and three halves
of it to twice it. -/
theorem roundF64_samples :
    roundF64 (1 / 10) = 3602879701896397 / 36028797018963968 ∧
    roundF64 (115 / 100) = 2589569785738035 / 2251799813685248 ∧
    roundF64 (105 / 100) = 4728779608739021 / 4503599627370496 ∧
    roundF64 (5 / 4) = 5 / 4 ∧
    roundF64 (-(1 / 10)) = -(3602879701896397 / 36028797018963968) ∧
    roundF64 (2 ^ 53 + 1) = 2 ^ 53 ∧
    roundF64 (2 ^ 53 + 3) = 2 ^ 53 + 4 ∧
    roundF64 (1 / 2 ^ 1075) = 0 ∧
    roundF64 (3 / 2 ^ 1075) = 1 / 2 ^ 1073 ∧
    roundF64 (1150000 : ℚ) = 1150000 ∧
    roundF64 (1999 / 2) = 1999 / 2 ∧
    ¬ IsFloat64 (1 / 10) := by
  refine ⟨by decide!, by decide!, by decide!, by decide!, by decide!, by decide!,
    by decide!, by decide!, by decide!, by decide!, by decide!, ?_⟩
  unfold IsFloat64
  decide!

/-- C8: `FormatVolume` renders zero as a dash, a volume of a million or more as the
volume over a million with one decimal and the suffix M, a volume from a thousand up
to a million as the volume over a thousand with one decimal and the suffix K, and
any other volume as whole dollars, without a point and without a suffix. The
quotients are those of `float64` division. -/
theorem FormatVolume_spec (v : ℚ) :
    (FormatVolume 0).text = "—" ∧
    (1000000 ≤ v →
      FormatVolume v = plain ("$" ++ fmtFixed 1 false (divF64 v 1000000) ++ "M") ∧
        HasDecimals (fmtFixed 1 false (divF64 v 1000000)) 1) ∧
    (1000 ≤ v → v < 1000000 →
      FormatVolume v = plain ("$" ++ fmtFixed 1 false (divF64 v 1000) ++ "K") ∧
        HasDecimals (fmtFixed 1 false (divF64 v 1000)) 1) ∧
    (v < 1000 → v ≠ 0 →
      FormatVolume v = plain ("$" ++ fmtFixed 0 false v) ∧
        fmtFixed 0 false v =
          (if v < 0 then "-" else "") ++ toString (roundHalfEven v.num.natAbs v.den)) := by
  refine ⟨by simp [FormatVolume, Color.Sprint], ?_, ?_, ?_⟩
  · intro h
    have hv : v ≠ 0 := ne_of_gt (lt_of_lt_of_le (by norm_num) h)
    exact ⟨by simp [FormatVolume, hv, h], fmtFixed_hasDecimals 1 false _ (by decide)⟩
  · intro h0 h1
    have hv : v ≠ 0 := ne_of_gt (lt_of_lt_of_le (by norm_num) h0)
    exact ⟨by simp [FormatVolume, hv, h0, not_le.mpr h1],
      fmtFixed_hasDecimals 1 false _ (by decide)⟩
  · intro h hv
    have h2 : ¬ (1000000 : ℚ) ≤ v := not_le.mpr (lt_trans h (by norm_num))
    exact ⟨by simp [FormatVolume, hv, h2, not_le.mpr h], by simp [fmtFixed]⟩

theorem FormatVolume_spec_witness :
    IsFloat64 1150000 ∧ IsFloat64 1050 ∧
    (1000000 : ℚ) ≤ 1150000 ∧
    (FormatVolume 1150000 = plain ("$" ++ fmtFixed 1 false (divF64 1150000 1000000) ++ "M") ∧
      HasDecimals (fmtFixed 1 false (divF64 1150000 1000000)) 1) ∧
    divF64 1150000 1000000 = 2589569785738035 / 2251799813685248 ∧
    FormatVolume 1150000 = plain "$1.1M" ∧
    FormatVolume 1250000 = plain "$1.2M" ∧
    FormatVolume 1050 = plain "$1.1K" ∧
    FormatVolume 45300 = plain "$45.3K" ∧
    FormatVolume 1234567 = plain "$1.2M" ∧
    FormatVolume 999999 = plain "$1000.0K" ∧
    FormatVolume 999 = plain "$999" ∧
    FormatVolume (1999 / 2) = plain "$1000" ∧
    FormatVolume (-5) = plain "$-5" ∧
    FormatVolume 0 = Color.Dim.Sprint "—" :=
  ⟨by unfold IsFloat64; decide!, by unfold IsFloat64; decide!,
   by norm_num, (FormatVolume_spec 1150000).2.1 (by norm_num),
   by decide!, by decide!, by decide!, by decide!, by decide!, by decide!, by decide!,
   by decide!, by decide!, by decide!, by decide!⟩

/-- C9, the claim on the code: `FormatChange` renders zero as a zero percentage, not
as a dash: "+0.00%" for zero and "-0.00%" for negative zero. -/
theorem FormatChange_zero_not_dash :
    FormatChange (Float64.num 0) = plain "+0.00%" ∧
    FormatChange Float64.negZero = plain "-0.00%" ∧
    (FormatChange (Float64.num 0)).text ≠ "—" ∧
    (FormatChange Float64.negZero).text ≠ "—" := by
  refine ⟨by decide, by decide, by decide, by decide⟩

/-- C9, as the code has it: `FormatPrice`, `FormatVolume` and `formatPnl` render a
dash for zero and for zero only, while `FormatChange` never renders a dash: it
renders every value as a signed percentage with two decimals, and a zero without a
colour, as "+0.00%", or as "-0.00%" when it is negative zero. -/
theorem dash_iff_zero (x : ℚ) (y : Float64) :
    ((FormatPrice x).text = "—" ↔ x = 0) ∧
    ((FormatVolume x).text = "—" ↔ x = 0) ∧
    ((formatPnl x).text = "—" ↔ x = 0) ∧
    (FormatChange y).text ≠ "—" ∧
    (FormatChange y).text = fmtSigned 2 y ++ "%" ∧
    IsSignedPercent (FormatChange y).text 2 ∧
    (y.toRat = 0 → (FormatChange y).color = none) ∧
    (y.toRat = 0 →
      (FormatChange y).text = "+0.00%" ∨ (FormatChange y).text = "-0.00%") ∧
    FormatChange (Float64.num 0) = plain "+0.00%" ∧
    FormatChange Float64.negZero = plain "-0.00%" := by
  have htext : (FormatChange y).text = fmtSigned 2 y ++ "%" := by
    unfold FormatChange
    simp only
    split_ifs <;> rfl
  have hform : IsSignedPercent (FormatChange y).text 2 := by
    rw [htext]
    exact fmtSigned_percent 2 y (by decide)
  refine ⟨?_, ?_, ?_, isSignedPercent_ne_dash _ _ hform, htext, hform, ?_, ?_,
    by decide, by decide⟩
  · constructor
    · intro h
      by_contra hx
      unfold FormatPrice at h
      simp only [hx, if_false] at h
      split_ifs at h <;> exact dollar_ne_dash _ h
    · intro hx
      simp [hx, FormatPrice, Color.Sprint]
  · constructor
    · intro h
      by_contra hx
      unfold FormatVolume at h
      simp only [hx, if_false] at h
      split_ifs at h
      · exact dollar_ne_dash _ (by rw [← h, plain, String.append_assoc])
      · exact dollar_ne_dash _ (by rw [← h, plain, String.append_assoc])
      · exact dollar_ne_dash _ h
    · intro hx
      simp [hx, FormatVolume, Color.Sprint]
  · constructor
    · intro h
      by_contra hx
      unfold formatPnl at h
      simp only [hx, if_false] at h
      split_ifs at h <;> exact signed_percent_ne_dash _ _ h
    · intro hx
      simp [hx, formatPnl, Color.Sprint]
  · intro h0
    unfold FormatChange
    simp [h0, plain]
  · intro h0
    rw [htext]
    cases y with
    | negZero => exact Or.inr (by decide)
    | num q =>
      have hq : q = 0 := h0
      rw [hq]
      exact Or.inl (by decide)

/-! ### Saving and loading the settings -/

theorem LoadConfig_withFile (lib : Lib) (w : World) (home text : String) (cfg : Config)
    (hh : w.home = .ok home) (hdec : lib.tomlDecode text = .ok cfg) :
    LoadConfig lib (w.withFile (lib.joinConfigPath home) text) = (cfg, none) := by
  simp [LoadConfig, configPath, World.withFile, hh, hdec]

/-- What a successful `SaveConfig` has done: the file at the configuration path holds
the text of the encoder, and nothing else has changed. -/
theorem SaveConfig_ok (lib : Lib) (w w' : World) (cfg : Config)
    (h : SaveConfig lib w cfg = (w', none)) :
    ∃ home text, w.home = .ok home ∧ lib.tomlEncode cfg = .ok text ∧
      w' = w.withFile (lib.joinConfigPath home) text := by
  unfold SaveConfig configPath at h
  cases hh : w.home with
  | error e => simp [hh] at h
  | ok home =>
    simp only [hh] at h
    cases hm : w.mkdirAllErr (lib.dir (lib.joinConfigPath home)) with
    | some e => simp [hm] at h
    | none =>
      simp only [hm] at h
      cases hc : w.createErr (lib.joinConfigPath home) with
      | some e => simp [hc] at h
      | none =>
        simp only [hc] at h
        cases he : lib.tomlEncode cfg with
        | error e => simp [he] at h
        | ok text =>
          simp only [he] at h
          cases hw : w.writeErr (lib.joinConfigPath home) text with
          | some e => simp [hw] at h
          | none =>
            simp only [hw, Prod.mk.injEq, and_true] at h
            exact ⟨home, text, rfl, rfl, h.symm⟩

theorem LoadConfig_after_SaveConfig (lib : Lib) (w w' : World) (cfg : Config)
    (hsave : SaveConfig lib w cfg = (w', none))
    (hlib : ∀ text, lib.tomlEncode cfg = .ok text → lib.tomlDecode text = .ok cfg) :
    LoadConfig lib w' = (cfg, none) := by
  obtain ⟨home, text, hh, he, hw⟩ := SaveConfig_ok lib w w' cfg hsave
  rw [hw]
  exact LoadConfig_withFile lib w home text cfg hh (hlib text he)

/-- C11: a successful `SaveConfig(cfg)` followed by `LoadConfig()` returns `cfg` and
no error, for every settings record, both fields empty included, as long as the TOML
decoder reads back what the TOML encoder wrote for `cfg`. -/
theorem SaveConfig_LoadConfig_roundtrip (lib : Lib) (w w' : World) (cfg : Config)
    (hsave : SaveConfig lib w cfg = (w', none))
    (hlib : ∀ text, lib.tomlEncode cfg = .ok text → lib.tomlDecode text = .ok cfg) :
    LoadConfig lib w' = (cfg, none) ∧
    (w'.home = w.home ∧ w'.getenv = w.getenv) :=
  ⟨LoadConfig_after_SaveConfig lib w w' cfg hsave hlib, by
    obtain ⟨home, text, _, _, hw⟩ := SaveConfig_ok lib w w' cfg hsave
    rw [hw]
    exact ⟨rfl, rfl⟩⟩

theorem SaveConfig_LoadConfig_roundtrip_witness :
    SaveConfig sampleLib (sampleWorld "" "" (.content "api_key = \"Z\"") (reply 200 ""))
        ⟨"", ""⟩
      = ((sampleWorld "" "" (.content "api_key = \"Z\"") (reply 200 "")).withFile
          "/home/fan/.fti/config.toml" "api_key = \"\"\napi_url = \"\"\n", none) ∧
    (LoadConfig sampleLib
        ((sampleWorld "" "" (.content "api_key = \"Z\"") (reply 200 "")).withFile
          "/home/fan/.fti/config.toml" "api_key = \"\"\napi_url = \"\"\n")
        = (⟨"", ""⟩, none) ∧
      (((sampleWorld "" "" (.content "api_key = \"Z\"") (reply 200 "")).withFile
          "/home/fan/.fti/config.toml" "api_key = \"\"\napi_url = \"\"\n").home
        = (sampleWorld "" "" (.content "api_key = \"Z\"") (reply 200 "")).home ∧
       ((sampleWorld "" "" (.content "api_key = \"Z\"") (reply 200 "")).withFile
          "/home/fan/.fti/config.toml" "api_key = \"\"\napi_url = \"\"\n").getenv
        = (sampleWorld "" "" (.content "api_key = \"Z\"") (reply 200 "")).getenv)) ∧
    LoadConfig sampleLib
      (SaveConfig sampleLib (sampleWorld "" "" .missing (reply 200 ""))
        ⟨"ti_live_1", "http://localhost:8000"⟩).1
      = (⟨"ti_live_1", "http://localhost:8000"⟩, none) :=
  ⟨rfl,
   SaveConfig_LoadConfig_roundtrip sampleLib
     (sampleWorld "" "" (.content "api_key = \"Z\"") (reply 200 "")) _ ⟨"", ""⟩ rfl
     (fun text h => by
       have ht : text = "api_key = \"\"\napi_url = \"\"\n" := by
         simp only [sampleLib, Except.ok.injEq] at h
         rw [← h]
         decide
       rw [ht]
       rfl),
   by decide⟩

/-- C12: `LoadConfig` returns the empty record and no error when the settings file
does not exist; when the file exists but does not decode it returns the empty record
and a "reading config" error around the failure; and whenever it returns an error
the record it returns is empty. -/
theorem LoadConfig_missing_or_malformed (lib : Lib) (w : World) :
    (∀ home, w.home = .ok home → w.fs (lib.joinConfigPath home) = .missing →
      LoadConfig lib w = (⟨"", ""⟩, none)) ∧
    (∀ home data err, w.home = .ok home →
      w.fs (lib.joinConfigPath home) = .content data → lib.tomlDecode data = .error err →
      LoadConfig lib w = (⟨"", ""⟩, some ("reading config: " ++ err))) ∧
    (∀ home err, w.home = .ok home → w.fs (lib.joinConfigPath home) = .unreadable err →
      LoadConfig lib w = (⟨"", ""⟩, some ("reading config: " ++ err))) ∧
    (∀ err, (LoadConfig lib w).2 = some err → (LoadConfig lib w).1 = ⟨"", ""⟩) := by
  refine ⟨?_, ?_, ?_, ?_⟩
  · intro home hh hf
    simp [LoadConfig, configPath, hh, hf]
  · intro home data err hh hf hd
    simp [LoadConfig, configPath, hh, hf, hd]
  · intro home err hh hf
    simp [LoadConfig, configPath, hh, hf]
  · intro err h
    exact LoadConfig_error_empty lib w err h

theorem LoadConfig_missing_or_malformed_witness :
    (sampleWorld "" "" .missing (reply 200 "")).home = .ok "/home/fan" ∧
    (sampleWorld "" "" .missing (reply 200 "")).fs (sampleLib.joinConfigPath "/home/fan")
      = .missing ∧
    LoadConfig sampleLib (sampleWorld "" "" .missing (reply 200 "")) = (⟨"", ""⟩, none) ∧
    LoadConfig sampleLib (sampleWorld "" "" (.content "api_key = ") (reply 200 ""))
      = (⟨"", ""⟩, some "reading config: toml: expected key separator") :=
  ⟨rfl, by decide,
   (LoadConfig_missing_or_malformed sampleLib (sampleWorld "" "" .missing (reply 200 ""))).1
     "/home/fan" rfl (by decide),
   by decide⟩

/-- C13: a non-empty override is returned with no error whatever the environment and
the settings file, and `ResolveAPIKey` returns an error exactly when the override is
empty, `FTI_API_KEY` is empty or unset, and `LoadConfig` fails. -/
theorem ResolveAPIKey_override (lib : Lib) (w : World) (o : String) :
    (o ≠ "" → ResolveAPIKey lib w o = (o, none)) ∧
    ((ResolveAPIKey lib w o).2 ≠ none ↔
      o = "" ∧ w.getenv "FTI_API_KEY" = "" ∧ (LoadConfig lib w).2 ≠ none) := by
  refine ⟨?_, ?_⟩
  · intro ho
    simp [ResolveAPIKey, ho]
  · unfold ResolveAPIKey
    by_cases ho : o = ""
    · by_cases he : w.getenv "FTI_API_KEY" = ""
      · rcases hl : LoadConfig lib w with ⟨cfg, _ | err⟩
        · simp [ho, he]
        · simp [ho, he]
      · simp [ho, he]
    · simp [ho]

theorem ResolveAPIKey_override_witness :
    "X" ≠ "" ∧
    ResolveAPIKey sampleLib (sampleWorld "Y" "" (.content "api_key = ") (reply 200 "")) "X"
      = ("X", none) ∧
    ResolveAPIKey sampleLib (sampleWorld "Y" "" (.content "api_key = ") (reply 200 "")) ""
      = ("Y", none) ∧
    ResolveAPIKey sampleLib (sampleWorld "" "" (.content "api_key = ") (reply 200 "")) ""
      = ("", some "reading config: toml: expected key separator") :=
  ⟨by decide,
   (ResolveAPIKey_override sampleLib
      (sampleWorld "Y" "" (.content "api_key = ") (reply 200 "")) "X").1 (by decide),
   by decide, by decide⟩

/-! ### The requests of the client -/

theorem prepare_headers (c : Client) (req : Request)
    (h : valuesGet req.Header "Authorization" = none) : hasClientHeaders c (c.prepare req) := by
  unfold hasClientHeaders Client.prepare Request.setHeader
  by_cases hk : c.APIKey = ""
  · simp [hk, valuesGet_valuesSet, h]
  · simp [hk, valuesGet_valuesSet]

theorem prepare_url (c : Client) (req : Request) :
    (c.prepare req).URL = req.URL ∧ (c.prepare req).Method = req.Method ∧
      (c.prepare req).Body = req.Body := by
  unfold Client.prepare Request.setHeader
  by_cases hk : c.APIKey = "" <;> simp [hk]

/-- The requests `Client.Get` sends: at most one, the prepared GET of the endpoint. -/
theorem Client_Get_sent_mem (lib : Lib) (w : World) (c : Client) (path : String)
    (params : Values) (out : Option Shape) :
    ∀ r ∈ (Client.Get lib w c path params out).2,
      r = c.prepare ⟨"GET", endpoint lib c.BaseURL path params, [], none⟩ := by
  intro r hr
  unfold Client.Get newRequest at hr
  unfold endpoint
  simp only at hr
  cases hn : lib.newRequestErr "GET"
      (if params.length > 0 then c.BaseURL ++ path ++ "?" ++ lib.encode params
        else c.BaseURL ++ path) with
  | some e => simp [hn] at hr
  | none =>
    simp only [hn] at hr
    have hsent := Client_do_sent lib w c
      ⟨"GET", if params.length > 0 then c.BaseURL ++ path ++ "?" ++ lib.encode params
        else c.BaseURL ++ path, [], none⟩
    rcases hdo : Client.do lib w c
      ⟨"GET", if params.length > 0 then c.BaseURL ++ path ++ "?" ++ lib.encode params
        else c.BaseURL ++ path, [], none⟩ with ⟨⟨body, err⟩, sent⟩
    rw [hdo] at hsent hr
    simp only at hsent
    subst hsent
    cases err with
    | some e => simpa using hr
    | none =>
      cases out with
      | none => simpa using hr
      | some shape =>
        cases hu : lib.unmarshal shape (body.getD "") with
        | some e => simpa [hu] using hr
        | none => simpa [hu] using hr

/-- The requests `Client.Post` sends: at most one, the prepared POST with its
content type. -/
theorem Client_Post_sent_mem (lib : Lib) (w : World) (c : Client) (path : String)
    (payload : StrMap) (out : Option Shape) :
    ∀ r ∈ (Client.Post lib w c path payload out).2,
      ∃ data, r = c.prepare
        (Request.setHeader ⟨"POST", c.BaseURL ++ path, [], some data⟩
          "Content-Type" "application/json") := by
  intro r hr
  unfold Client.Post newRequest at hr
  cases hm : lib.marshal payload with
  | error e => simp [hm] at hr
  | ok data =>
    simp only [hm] at hr
    cases hn : lib.newRequestErr "POST" (c.BaseURL ++ path) with
    | some e => simp [hn] at hr
    | none =>
      simp only [hn] at hr
      have hsent := Client_do_sent lib w c
        (Request.setHeader ⟨"POST", c.BaseURL ++ path, [], some data⟩
          "Content-Type" "application/json")
      rcases hdo : Client.do lib w c
        (Request.setHeader ⟨"POST", c.BaseURL ++ path, [], some data⟩
          "Content-Type" "application/json") with ⟨⟨body, err⟩, sent⟩
      rw [hdo] at hsent hr
      simp only at hsent
      subst hsent
      refine ⟨data, ?_⟩
      cases err with
      | some e => simpa using hr
      | none =>
        cases out with
        | none => simpa using hr
        | some shape =>
          cases hu : lib.unmarshal shape (body.getD "") with
          | some e => simpa [hu] using hr
          | none => simpa [hu] using hr

/-- C14: every request that goes through `Client.do` carries `Accept:
application/json` and the `User-Agent` `fti-cli/1.0`, and carries `Authorization`
exactly when the key of the client is non-empty, then with the value "Bearer "
followed by the key. This holds for a request that comes without `Authorization`,
as all the requests of `Client.Get` and `Client.Post` do. -/
theorem Client_headers (lib : Lib) (w : World) (c : Client) :
    (∀ req, valuesGet req.Header "Authorization" = none →
      (Client.do lib w c req).2 = [c.prepare req] ∧ hasClientHeaders c (c.prepare req)) ∧
    (∀ path params out, ∀ r ∈ (Client.Get lib w c path params out).2,
      hasClientHeaders c r) ∧
    (∀ path payload out, ∀ r ∈ (Client.Post lib w c path payload out).2,
      hasClientHeaders c r) ∧
    (c.APIKey = "" → ∀ path params out, ∀ r ∈ (Client.Get lib w c path params out).2,
      valuesGet r.Header "Authorization" = none) := by
  refine ⟨?_, ?_, ?_, ?_⟩
  · intro req h
    exact ⟨Client_do_sent lib w c req, prepare_headers c req h⟩
  · intro path params out r hr
    rw [Client_Get_sent_mem lib w c path params out r hr]
    exact prepare_headers c _ rfl
  · intro path payload out r hr
    obtain ⟨data, hd⟩ := Client_Post_sent_mem lib w c path payload out r hr
    rw [hd]
    exact prepare_headers c _ (by simp [Request.setHeader, valuesSet, valuesGet])
  · intro hk path params out r hr
    rw [Client_Get_sent_mem lib w c path params out r hr]
    have := (prepare_headers c ⟨"GET", endpoint lib c.BaseURL path params, [], none⟩ rfl).2.2
    simpa [hk] using this

theorem Client_headers_witness :
    valuesGet (⟨"GET", "/api/tokens", [], none⟩ : Request).Header "Authorization" = none ∧
    ((Client.do sampleLib (sampleWorld "" "" .missing (reply 200 "\x7b\x7d"))
        (NewClient defaultBaseURL "ti_live_1") ⟨"GET", "/api/tokens", [], none⟩).2
        = [(NewClient defaultBaseURL "ti_live_1").prepare ⟨"GET", "/api/tokens", [], none⟩] ∧
      hasClientHeaders (NewClient defaultBaseURL "ti_live_1")
        ((NewClient defaultBaseURL "ti_live_1").prepare ⟨"GET", "/api/tokens", [], none⟩)) ∧
    (Client.do sampleLib (sampleWorld "" "" .missing (reply 200 "\x7b\x7d"))
        (NewClient defaultBaseURL "ti_live_1") ⟨"GET", "/api/tokens", [], none⟩).2
      = [⟨"GET", "/api/tokens",
          [("Authorization", ["Bearer ti_live_1"]), ("Accept", ["application/json"]),
            ("User-Agent", ["fti-cli/1.0"])], none⟩] ∧
    (Client.do sampleLib (sampleWorld "" "" .missing (reply 200 "\x7b\x7d"))
        (NewClient defaultBaseURL "") ⟨"GET", "/api/tokens", [], none⟩).2
      = [⟨"GET", "/api/tokens",
          [("Accept", ["application/json"]), ("User-Agent", ["fti-cli/1.0"])], none⟩] :=
  ⟨rfl,
   (Client_headers sampleLib (sampleWorld "" "" .missing (reply 200 "\x7b\x7d"))
      (NewClient defaultBaseURL "ti_live_1")).1 ⟨"GET", "/api/tokens", [], none⟩ rfl,
   by decide, by decide⟩

/-! ### Symbols in paths and filters -/

/-- When the request can be built, `Client.Get` sends exactly one request: the
prepared GET of the endpoint. -/
theorem Client_Get_sent_eq (lib : Lib) (w : World) (c : Client) (path : String)
    (params : Values) (out : Option Shape)
    (h : lib.newRequestErr "GET" (endpoint lib c.BaseURL path params) = none) :
    (Client.Get lib w c path params out).2 =
      [c.prepare ⟨"GET", endpoint lib c.BaseURL path params, [], none⟩] := by
  unfold endpoint at h ⊢
  unfold Client.Get newRequest
  simp only [h]
  have hsent := Client_do_sent lib w c
    ⟨"GET", if params.length > 0 then c.BaseURL ++ path ++ "?" ++ lib.encode params
      else c.BaseURL ++ path, [], none⟩
  rcases hdo : Client.do lib w c
    ⟨"GET", if params.length > 0 then c.BaseURL ++ path ++ "?" ++ lib.encode params
      else c.BaseURL ++ path, [], none⟩ with ⟨⟨body, err⟩, sent⟩
  rw [hdo] at hsent
  simp only at hsent
  subst hsent
  cases err with
  | some e => rfl
  | none =>
    cases out with
    | none => rfl
    | some shape =>
      cases hu : lib.unmarshal shape (body.getD "") with
      | some e => simp [hu]
      | none => simp [hu]

theorem Client_Get_urls (lib : Lib) (w : World) (c : Client) (path : String)
    (params : Values) (out : Option Shape)
    (h : lib.newRequestErr "GET" (endpoint lib c.BaseURL path params) = none) :
    (Client.Get lib w c path params out).2.map Request.URL =
      [endpoint lib c.BaseURL path params] := by
  rw [Client_Get_sent_eq lib w c path params out h]
  simp [(prepare_url c _).1]

theorem endpoint_nil (lib : Lib) (baseURL path : String) :
    endpoint lib baseURL path [] = baseURL ++ path := rfl

theorem currentPrice_urls (lib : Lib) (w : World) (c : Client) (symbol : String)
    (h : lib.newRequestErr "GET" (c.BaseURL ++ ("/api/tokens/" ++ symbol)) = none) :
    (currentPrice lib w c symbol).2.map Request.URL =
      [c.BaseURL ++ ("/api/tokens/" ++ symbol)] := by
  have hg := Client_Get_urls lib w c ("/api/tokens/" ++ symbol) [] (some Shape.tokenPrice) h
  unfold currentPrice
  rcases hx : Client.Get lib w c ("/api/tokens/" ++ symbol) [] (some Shape.tokenPrice)
    with ⟨⟨b, _ | e⟩, sent⟩ <;> rw [hx] at hg <;> exact hg

theorem priceHistory_urls (lib : Lib) (w : World) (fl : Flags) (c : Client)
    (symbol : String)
    (h : lib.newRequestErr "GET"
      (endpoint lib c.BaseURL ("/api/tokens/" ++ symbol ++ "/history")
        (buildQuery [("interval", fl.pricesInterval), ("days", toString fl.pricesDays)]))
      = none) :
    (priceHistory lib w fl c symbol).2.map Request.URL =
      [endpoint lib c.BaseURL ("/api/tokens/" ++ symbol ++ "/history")
        (buildQuery [("interval", fl.pricesInterval), ("days", toString fl.pricesDays)])] := by
  have hg := Client_Get_urls lib w c ("/api/tokens/" ++ symbol ++ "/history")
    (buildQuery [("interval", fl.pricesInterval), ("days", toString fl.pricesDays)])
    (some Shape.priceHistory) h
  unfold priceHistory
  simp only
  rcases hx : Client.Get lib w c ("/api/tokens/" ++ symbol ++ "/history")
    (buildQuery [("interval", fl.pricesInterval), ("days", toString fl.pricesDays)])
    (some Shape.priceHistory) with ⟨⟨b, _ | e⟩, sent⟩ <;> rw [hx] at hg <;> exact hg

theorem tokensGet_urls (lib : Lib) (w : World) (arg : String)
    (h : lib.newRequestErr "GET"
      (ResolveBaseURL lib w defaultBaseURL ++ ("/api/tokens/" ++ lib.toUpper arg)) = none) :
    (tokensGet lib w arg).2.map Request.URL =
      [ResolveBaseURL lib w defaultBaseURL ++ ("/api/tokens/" ++ lib.toUpper arg)] := by
  have hg := Client_Get_urls lib w (NewClient (ResolveBaseURL lib w defaultBaseURL) "")
    ("/api/tokens/" ++ lib.toUpper arg) [] (some Shape.tokenDetail) h
  unfold tokensGet
  simp only
  rcases hx : Client.Get lib w (NewClient (ResolveBaseURL lib w defaultBaseURL) "")
    ("/api/tokens/" ++ lib.toUpper arg) [] (some Shape.tokenDetail)
    with ⟨⟨b, _ | e⟩, sent⟩ <;> rw [hx] at hg <;> exact hg

theorem whalesCombined_urls (lib : Lib) (w : World) (fl : Flags) (c : Client)
    (symbol : String) (hs : symbol ≠ "")
    (h : lib.newRequestErr "GET"
      (endpoint lib c.BaseURL "/api/whales/combined"
        (buildQuery [("limit", toString fl.whalesLimit),
          ("min_value", fmtFixed 0 false fl.whalesMinValue),
          ("hours", toString fl.whalesHours), ("symbol", symbol)])) = none) :
    (whalesCombined lib w fl c symbol).2.map Request.URL =
      [endpoint lib c.BaseURL "/api/whales/combined"
        (buildQuery [("limit", toString fl.whalesLimit),
          ("min_value", fmtFixed 0 false fl.whalesMinValue),
          ("hours", toString fl.whalesHours), ("symbol", symbol)])] := by
  have hg := Client_Get_urls lib w c "/api/whales/combined"
    (buildQuery [("limit", toString fl.whalesLimit),
      ("min_value", fmtFixed 0 false fl.whalesMinValue),
      ("hours", toString fl.whalesHours), ("symbol", symbol)]) (some Shape.whaleTrades) h
  have hp : mapSet [("limit", toString fl.whalesLimit),
      ("min_value", fmtFixed 0 false fl.whalesMinValue),
      ("hours", toString fl.whalesHours)] "symbol" symbol =
      [("limit", toString fl.whalesLimit), ("min_value", fmtFixed 0 false fl.whalesMinValue),
        ("hours", toString fl.whalesHours), ("symbol", symbol)] := by
    simp [mapSet]
  unfold whalesCombined
  simp only [hs, ne_eq, not_false_eq_true, if_true]
  rw [hp]
  rcases hx : Client.Get lib w c "/api/whales/combined"
    (buildQuery [("limit", toString fl.whalesLimit),
      ("min_value", fmtFixed 0 false fl.whalesMinValue),
      ("hours", toString fl.whalesHours), ("symbol", symbol)]) (some Shape.whaleTrades)
    with ⟨⟨b, _ | e⟩, sent⟩ <;> rw [hx] at hg <;> exact hg

theorem sportsUpcoming_urls (lib : Lib) (w : World) (fl : Flags) (ht : fl.sportsToken ≠ "")
    (h : lib.newRequestErr "GET"
      (endpoint lib (ResolveBaseURL lib w defaultBaseURL) "/api/matches/upcoming"
        (buildQuery [("days", toString fl.sportsDays), ("limit", "100"),
          ("token", lib.toUpper fl.sportsToken)])) = none) :
    (sportsUpcoming lib w fl).2.map Request.URL =
      [endpoint lib (ResolveBaseURL lib w defaultBaseURL) "/api/matches/upcoming"
        (buildQuery [("days", toString fl.sportsDays), ("limit", "100"),
          ("token", lib.toUpper fl.sportsToken)])] := by
  have hg := Client_Get_urls lib w (NewClient (ResolveBaseURL lib w defaultBaseURL) "")
    "/api/matches/upcoming"
    (buildQuery [("days", toString fl.sportsDays), ("limit", "100"),
      ("token", lib.toUpper fl.sportsToken)]) (some Shape.matches) h
  have hp : mapSet [("days", toString fl.sportsDays), ("limit", "100")] "token"
      (lib.toUpper fl.sportsToken) =
      [("days", toString fl.sportsDays), ("limit", "100"),
        ("token", lib.toUpper fl.sportsToken)] := by
    simp [mapSet]
  unfold sportsUpcoming
  simp only [ht, ne_eq, not_false_eq_true, if_true]
  rw [hp]
  rcases hx : Client.Get lib w (NewClient (ResolveBaseURL lib w defaultBaseURL) "")
    "/api/matches/upcoming"
    (buildQuery [("days", toString fl.sportsDays), ("limit", "100"),
      ("token", lib.toUpper fl.sportsToken)]) (some Shape.matches)
    with ⟨⟨b, _ | e⟩, sent⟩ <;> rw [hx] at hg <;> exact hg

theorem signalsActive_urls (lib : Lib) (w : World) (fl : Flags) (key : String)
    (hk : ResolveAPIKey lib w fl.apiKey = (key, none)) (hkey : key ≠ "")
    (ht : fl.signalsToken ≠ "")
    (h : lib.newRequestErr "GET"
      (endpoint lib (ResolveBaseURL lib w defaultBaseURL) "/api/v1/signals/active"
        (buildQuery [("min_confidence", fmtFixed 2 false fl.signalsMinConf),
          ("token", lib.toUpper fl.signalsToken)])) = none) :
    (signalsActive lib w fl).2.map Request.URL =
      [endpoint lib (ResolveBaseURL lib w defaultBaseURL) "/api/v1/signals/active"
        (buildQuery [("min_confidence", fmtFixed 2 false fl.signalsMinConf),
          ("token", lib.toUpper fl.signalsToken)])] := by
  have hg := Client_Get_urls lib w (NewClient (ResolveBaseURL lib w defaultBaseURL) key)
    "/api/v1/signals/active"
    (buildQuery [("min_confidence", fmtFixed 2 false fl.signalsMinConf),
      ("token", lib.toUpper fl.signalsToken)]) (some Shape.activeSignals) h
  have hp : mapSet [("min_confidence", fmtFixed 2 false fl.signalsMinConf)] "token"
      (lib.toUpper fl.signalsToken) =
      [("min_confidence", fmtFixed 2 false fl.signalsMinConf),
        ("token", lib.toUpper fl.signalsToken)] := by
    simp [mapSet]
  unfold signalsActive
  rw [hk]
  simp only [hkey, if_false, ht, ne_eq, not_false_eq_true, if_true]
  rw [hp]
  rcases hx : Client.Get lib w (NewClient (ResolveBaseURL lib w defaultBaseURL) key)
    "/api/v1/signals/active"
    (buildQuery [("min_confidence", fmtFixed 2 false fl.signalsMinConf),
      ("token", lib.toUpper fl.signalsToken)]) (some Shape.activeSignals)
    with ⟨⟨b, _ | e⟩, sent⟩ <;> rw [hx] at hg <;> exact hg

theorem signalsHistory_urls (lib : Lib) (w : World) (fl : Flags) (key : String)
    (hk : ResolveAPIKey lib w fl.apiKey = (key, none)) (hkey : key ≠ "")
    (ht : fl.signalsToken ≠ "")
    (h : lib.newRequestErr "GET"
      (endpoint lib (ResolveBaseURL lib w defaultBaseURL) "/api/v1/signals/history"
        (buildQuery
          (if fl.signalsOutcome ≠ "" then
            [("days", toString fl.signalsDays), ("limit", toString fl.signalsLimit),
              ("token", lib.toUpper fl.signalsToken), ("outcome", fl.signalsOutcome)]
          else
            [("days", toString fl.signalsDays), ("limit", toString fl.signalsLimit),
              ("token", lib.toUpper fl.signalsToken)]))) = none) :
    (signalsHistory lib w fl).2.map Request.URL =
      [endpoint lib (ResolveBaseURL lib w defaultBaseURL) "/api/v1/signals/history"
        (buildQuery
          (if fl.signalsOutcome ≠ "" then
            [("days", toString fl.signalsDays), ("limit", toString fl.signalsLimit),
              ("token", lib.toUpper fl.signalsToken), ("outcome", fl.signalsOutcome)]
          else
            [("days", toString fl.signalsDays), ("limit", toString fl.signalsLimit),
              ("token", lib.toUpper fl.signalsToken)]))] := by
  have hp : mapSet [("days", toString fl.signalsDays),
      ("limit", toString fl.signalsLimit)] "token" (lib.toUpper fl.signalsToken) =
      [("days", toString fl.signalsDays), ("limit", toString fl.signalsLimit),
        ("token", lib.toUpper fl.signalsToken)] := by
    simp [mapSet]
  have hp2 : (if ¬ fl.signalsOutcome = "" then
        mapSet [("days", toString fl.signalsDays), ("limit", toString fl.signalsLimit),
          ("token", lib.toUpper fl.signalsToken)] "outcome" fl.signalsOutcome
      else [("days", toString fl.signalsDays), ("limit", toString fl.signalsLimit),
          ("token", lib.toUpper fl.signalsToken)]) =
      (if fl.signalsOutcome ≠ "" then
        [("days", toString fl.signalsDays), ("limit", toString fl.signalsLimit),
          ("token", lib.toUpper fl.signalsToken), ("outcome", fl.signalsOutcome)]
      else
        [("days", toString fl.signalsDays), ("limit", toString fl.signalsLimit),
          ("token", lib.toUpper fl.signalsToken)]) := by
    by_cases ho : fl.signalsOutcome = "" <;> simp [ho, mapSet]
  unfold signalsHistory
  rw [hk]
  simp only [hkey, if_false, ht, ne_eq, not_false_eq_true, if_true]
  rw [hp, hp2]
  generalize (if fl.signalsOutcome ≠ "" then
        [("days", toString fl.signalsDays), ("limit", toString fl.signalsLimit),
          ("token", lib.toUpper fl.signalsToken), ("outcome", fl.signalsOutcome)]
      else
        [("days", toString fl.signalsDays), ("limit", toString fl.signalsLimit),
          ("token", lib.toUpper fl.signalsToken)]) = params at h ⊢
  have hg := Client_Get_urls lib w (NewClient (ResolveBaseURL lib w defaultBaseURL) key)
    "/api/v1/signals/history" (buildQuery params) (some Shape.signalHistory) h
  rcases hx : Client.Get lib w (NewClient (ResolveBaseURL lib w defaultBaseURL) key)
    "/api/v1/signals/history" (buildQuery params) (some Shape.signalHistory)
    with ⟨⟨b, _ | e⟩, sent⟩ <;> rw [hx] at hg <;> exact hg

/-! ### The watch loop -/

theorem watchLoop_result (lib : Lib) (w : World) (fl : Flags) (c : Client) (symbol : String)
    (evs : List Event) (log : WatchLog) :
    (watchLoop lib w fl c symbol evs log).1 =
      if hasInterrupt evs then Outcome.returned none else Outcome.polling := by
  induction evs generalizing log with
  | nil => rfl
  | cons e rest ih =>
    cases e with
    | interrupt => rfl
    | tick net =>
      simp only [watchLoop, hasInterrupt]
      exact ih _

theorem watchRefresh_fetches (lib : Lib) (w : World) (fl : Flags) (c : Client)
    (symbol : String) (log : WatchLog) :
    (watchRefresh lib w fl c symbol log).fetches.length = log.fetches.length + 1 := by
  simp [watchRefresh]

theorem watchLoop_fetches (lib : Lib) (w : World) (fl : Flags) (c : Client)
    (symbol : String) (evs : List Event) (log : WatchLog) :
    (watchLoop lib w fl c symbol evs log).2.fetches.length =
      log.fetches.length + ticksBeforeInterrupt evs := by
  induction evs generalizing log with
  | nil => rfl
  | cons e rest ih =>
    cases e with
    | interrupt => rfl
    | tick net =>
      simp only [watchLoop, ticksBeforeInterrupt]
      rw [ih, watchRefresh_fetches]
      omega

theorem watchRefresh_stderr (lib : Lib) (w : World) (fl : Flags) (c : Client)
    (symbol : String) (log : WatchLog) (h : log.stderr = stderrOf log.fetches) :
    (watchRefresh lib w fl c symbol log).stderr =
      stderrOf (watchRefresh lib w fl c symbol log).fetches := by
  unfold watchRefresh stderrOf
  simp only
  cases hr : (whalesCombined lib w fl c symbol).1 with
  | none => simp [h, stderrOf]
  | some e => simp [h, stderrOf]

theorem watchLoop_stderr (lib : Lib) (w : World) (fl : Flags) (c : Client)
    (symbol : String) (evs : List Event) (log : WatchLog)
    (h : log.stderr = stderrOf log.fetches) :
    (watchLoop lib w fl c symbol evs log).2.stderr =
      stderrOf (watchLoop lib w fl c symbol evs log).2.fetches := by
  induction evs generalizing log with
  | nil => exact h
  | cons e rest ih =>
    cases e with
    | interrupt => exact h
    | tick net =>
      simp only [watchLoop]
      exact ih _ (watchRefresh_stderr lib _ fl c symbol log h)

theorem wrapInt64_of_range (x : Int) (h1 : -2 ^ 63 ≤ x) (h2 : x < 2 ^ 63) :
    wrapInt64 x = x := by
  unfold wrapInt64
  rw [Int.emod_eq_of_lt (by omega) (by omega)]
  omega

/-- An interval of one second up to 9223372036 seconds gives a positive duration. -/
theorem tickerDuration_pos (interval : Int) (h1 : 1 ≤ interval)
    (h2 : interval ≤ 9223372036) : 0 < tickerDuration interval := by
  unfold tickerDuration
  rw [wrapInt64_of_range interval (by omega) (by omega),
    wrapInt64_of_range (interval * 1000000000) (by omega) (by omega)]
  omega

/-- An interval of zero or less, down to -9223372036 seconds, gives a duration that
is not positive. -/
theorem tickerDuration_nonpos (interval : Int) (h1 : interval ≤ 0)
    (h2 : -9223372036 ≤ interval) : tickerDuration interval ≤ 0 := by
  unfold tickerDuration
  rw [wrapInt64_of_range interval (by omega) (by omega),
    wrapInt64_of_range (interval * 1000000000) (by omega) (by omega)]
  omega

/-- The requests of the watch loop: one more GET of the same URL for each tick
before the signal. -/
theorem watchLoop_urls (lib : Lib) (w : World) (fl : Flags) (c : Client)
    (symbol : String) (hs : symbol ≠ "")
    (h : lib.newRequestErr "GET"
      (endpoint lib c.BaseURL "/api/whales/combined"
        (buildQuery [("limit", toString fl.whalesLimit),
          ("min_value", fmtFixed 0 false fl.whalesMinValue),
          ("hours", toString fl.whalesHours), ("symbol", symbol)])) = none)
    (evs : List Event) (log : WatchLog) :
    (watchLoop lib w fl c symbol evs log).2.sent.map Request.URL =
      log.sent.map Request.URL ++
        List.replicate (ticksBeforeInterrupt evs)
          (endpoint lib c.BaseURL "/api/whales/combined"
            (buildQuery [("limit", toString fl.whalesLimit),
              ("min_value", fmtFixed 0 false fl.whalesMinValue),
              ("hours", toString fl.whalesHours), ("symbol", symbol)])) := by
  induction evs generalizing log with
  | nil => simp [watchLoop, ticksBeforeInterrupt]
  | cons e rest ih =>
    cases e with
    | interrupt => simp [watchLoop, ticksBeforeInterrupt]
    | tick net =>
      simp only [watchLoop, ticksBeforeInterrupt]
      rw [ih]
      simp only [watchRefresh, List.map_append,
        whalesCombined_urls lib _ fl c symbol hs h, List.append_assoc]
      rw [List.replicate_succ]
      rfl

theorem whalesCmd_urls (lib : Lib) (w : World) (fl : Flags) (arg : String)
    (rest : List String) (evs : List Event)
    (hall : fl.whalesAll = false) (hu : lib.toUpper arg ≠ "")
    (h : lib.newRequestErr "GET"
      (endpoint lib (ResolveBaseURL lib w defaultBaseURL) "/api/whales/combined"
        (buildQuery [("limit", toString fl.whalesLimit),
          ("min_value", fmtFixed 0 false fl.whalesMinValue),
          ("hours", toString fl.whalesHours), ("symbol", lib.toUpper arg)])) = none) :
    (fl.whalesWatch = false →
      (whalesCmd lib w fl (arg :: rest) evs).2.sent.map Request.URL =
        [endpoint lib (ResolveBaseURL lib w defaultBaseURL) "/api/whales/combined"
          (buildQuery [("limit", toString fl.whalesLimit),
            ("min_value", fmtFixed 0 false fl.whalesMinValue),
            ("hours", toString fl.whalesHours), ("symbol", lib.toUpper arg)])]) ∧
    (fl.whalesWatch = true → 0 < tickerDuration fl.whalesInterval →
      (whalesCmd lib w fl (arg :: rest) evs).2.sent.map Request.URL =
        List.replicate (1 + ticksBeforeInterrupt evs)
          (endpoint lib (ResolveBaseURL lib w defaultBaseURL) "/api/whales/combined"
            (buildQuery [("limit", toString fl.whalesLimit),
              ("min_value", fmtFixed 0 false fl.whalesMinValue),
              ("hours", toString fl.whalesHours), ("symbol", lib.toUpper arg)]))) := by
  have hsym : (if (!fl.whalesAll) = true ∧ (arg :: rest).length > 0
      then lib.toUpper ((arg :: rest).getD 0 "") else "") = lib.toUpper arg := by
    simp [hall]
  refine ⟨?_, ?_⟩
  · intro hw
    unfold whalesCmd
    simp only [hsym, hw, Bool.not_false, if_true]
    exact whalesCombined_urls lib w fl
      (NewClient (ResolveBaseURL lib w defaultBaseURL) "") (lib.toUpper arg) hu h
  · intro hw hi
    unfold whalesCmd
    simp only [hsym, hw, Bool.not_true, Bool.false_eq_true, if_false, not_le.mpr hi]
    rw [watchLoop_urls lib w fl
      (NewClient (ResolveBaseURL lib w defaultBaseURL) "") (lib.toUpper arg) hu h]
    simp only [watchRefresh, List.nil_append,
      whalesCombined_urls lib w fl
        (NewClient (ResolveBaseURL lib w defaultBaseURL) "") (lib.toUpper arg) hu h]
    rw [Nat.add_comm, List.replicate_succ]
    rfl

/-- In watch mode an interval whose duration is not positive makes the handler panic
in `time.NewTicker`, whatever the events: nothing is fetched, nothing is sent and
nothing is written. -/
theorem whalesCmd_panics (lib : Lib) (w : World) (fl : Flags) (args : List String)
    (evs : List Event) (hw : fl.whalesWatch = true)
    (hi : tickerDuration fl.whalesInterval ≤ 0) :
    whalesCmd lib w fl args evs =
      (Outcome.panicked "non-positive interval for NewTicker", ⟨[], [], []⟩) := by
  unfold whalesCmd
  simp only [hw, Bool.not_true, Bool.false_eq_true, if_false, hi, if_true]

/-- C17, on the code: in watch mode with `--interval 0` the handler panics in
`time.NewTicker` before it fetches anything: it renders nothing on entry, the loop is
neither polling nor stopped, and a signal does not make the handler return nil. -/
theorem watch_mode_interval_zero :
    (watchFlags 0).whalesWatch = true ∧ (watchFlags 0).whalesInterval = 0 ∧
    (whalesCmd sampleLib (sampleWorld "" "" .missing (reply 200 "\x7b\x7d"))
        (watchFlags 0) ["psg"] []).1
      = Outcome.panicked "non-positive interval for NewTicker" ∧
    (whalesCmd sampleLib (sampleWorld "" "" .missing (reply 200 "\x7b\x7d"))
        (watchFlags 0) ["psg"] []).2.fetches = [] ∧
    (whalesCmd sampleLib (sampleWorld "" "" .missing (reply 200 "\x7b\x7d"))
        (watchFlags 0) ["psg"] []).2.sent = [] ∧
    watchState
        (whalesCmd sampleLib (sampleWorld "" "" .missing (reply 200 "\x7b\x7d"))
          (watchFlags 0) ["psg"] []).1
      ≠ some WatchState.Polling ∧
    (whalesCmd sampleLib (sampleWorld "" "" .missing (reply 200 "\x7b\x7d"))
        (watchFlags 0) ["psg"] [Event.interrupt]).1
      ≠ Outcome.returned none := by
  refine ⟨rfl, rfl, by decide, by decide, by decide, by decide, by decide⟩

/-- What watch mode does once the ticker exists: with an interval that gives the
ticker a positive duration, the whales handler fetches once on entry and then polls. It has
returned, and then with nil, exactly when a signal is among the events received; it
never returns an error and never panics, whatever the fetches on entry and on the
ticks give; each tick before the signal makes one more fetch, and the errors of the
fetches go to standard error only. -/
theorem watch_mode (lib : Lib) (w : World) (fl : Flags) (args : List String)
    (evs : List Event) (hw : fl.whalesWatch = true)
    (hi : 0 < tickerDuration fl.whalesInterval) :
    ((whalesCmd lib w fl args []).1 = Outcome.polling ∧
      (whalesCmd lib w fl args []).2.fetches.length = 1) ∧
    (watchState (whalesCmd lib w fl args evs).1 = some WatchState.Stopped ↔
      hasInterrupt evs = true) ∧
    (watchState (whalesCmd lib w fl args evs).1 = some WatchState.Polling ↔
      hasInterrupt evs = false) ∧
    (hasInterrupt evs = true → (whalesCmd lib w fl args evs).1 = Outcome.returned none) ∧
    (hasInterrupt evs = false → (whalesCmd lib w fl args evs).1 = Outcome.polling) ∧
    (∀ err, (whalesCmd lib w fl args evs).1 ≠ Outcome.returned (some err)) ∧
    (∀ msg, (whalesCmd lib w fl args evs).1 ≠ Outcome.panicked msg) ∧
    (whalesCmd lib w fl args evs).2.fetches.length = 1 + ticksBeforeInterrupt evs ∧
    (whalesCmd lib w fl args evs).2.stderr =
      stderrOf (whalesCmd lib w fl args evs).2.fetches := by
  have hi' : ¬ tickerDuration fl.whalesInterval ≤ 0 := not_le.mpr hi
  have hres : ∀ es, (whalesCmd lib w fl args es).1 =
      if hasInterrupt es then Outcome.returned none else Outcome.polling := by
    intro es
    unfold whalesCmd
    simp only [hw, Bool.not_true, Bool.false_eq_true, if_false, hi']
    exact watchLoop_result _ _ _ _ _ _ _
  have hfetch : ∀ es, (whalesCmd lib w fl args es).2.fetches.length =
      1 + ticksBeforeInterrupt es := by
    intro es
    unfold whalesCmd
    simp only [hw, Bool.not_true, Bool.false_eq_true, if_false, hi']
    rw [watchLoop_fetches, watchRefresh_fetches]
    rfl
  refine ⟨⟨?_, ?_⟩, ?_, ?_, ?_, ?_, ?_, ?_, hfetch evs, ?_⟩
  · rw [hres]
    rfl
  · rw [hfetch]
    rfl
  · rw [hres]
    cases hasInterrupt evs <;> simp [watchState]
  · rw [hres]
    cases hasInterrupt evs <;> simp [watchState]
  · intro h
    rw [hres, h]
    rfl
  · intro h
    rw [hres, h]
    rfl
  · intro err
    rw [hres]
    cases hasInterrupt evs <;> simp
  · intro msg
    rw [hres]
    cases hasInterrupt evs <;> simp
  · unfold whalesCmd
    simp only [hw, Bool.not_true, Bool.false_eq_true, if_false, hi']
    apply watchLoop_stderr
    apply watchRefresh_stderr
    rfl

theorem watch_mode_witness :
    (watchFlags 30).whalesWatch = true ∧ 0 < tickerDuration (watchFlags 30).whalesInterval ∧
    hasInterrupt sampleEvents = true ∧
    (whalesCmd sampleLib (sampleWorld "" "" .missing (reply 500 "")) (watchFlags 30)
        ["psg"] sampleEvents).1 = Outcome.returned none ∧
    (whalesCmd sampleLib (sampleWorld "" "" .missing (reply 500 "")) (watchFlags 30)
        ["psg"] sampleEvents).2.fetches.length = 1 + ticksBeforeInterrupt sampleEvents ∧
    (whalesCmd sampleLib (sampleWorld "" "" .missing (reply 500 "")) (watchFlags 30)
        ["psg"] sampleEvents).2.fetches
      = [some "API error 500: Internal Server Error",
         some "request failed: dial tcp: connection refused", none] ∧
    (whalesCmd sampleLib (sampleWorld "" "" .missing (reply 500 "")) (watchFlags 30)
        ["psg"] sampleEvents).2.stderr
      = ["error: API error 500: Internal Server Error",
         "error: request failed: dial tcp: connection refused"] ∧
    (whalesCmd sampleLib (sampleWorld "" "" .missing (reply 500 "")) (watchFlags 30)
        ["psg"] [Event.tick (fun _ => .error "dial tcp: connection refused")]).1
      = Outcome.polling :=
  ⟨rfl, by decide, rfl,
   (watch_mode sampleLib (sampleWorld "" "" .missing (reply 500 "")) (watchFlags 30)
      ["psg"] sampleEvents rfl (by decide)).2.2.2.1 rfl,
   (watch_mode sampleLib (sampleWorld "" "" .missing (reply 500 "")) (watchFlags 30)
      ["psg"] sampleEvents rfl (by decide)).2.2.2.2.2.2.2.1,
   by decide!, by decide!, by decide!⟩

theorem pricesCmd_toUpper_idem (lib : Lib) (w : World) (fl : Flags) (arg : String)
    (h : lib.toUpper (lib.toUpper arg) = lib.toUpper arg) :
    pricesCmd lib w fl (lib.toUpper arg) = pricesCmd lib w fl arg := by
  unfold pricesCmd
  rw [h]

theorem tokensGet_toUpper_idem (lib : Lib) (w : World) (arg : String)
    (h : lib.toUpper (lib.toUpper arg) = lib.toUpper arg) :
    tokensGet lib w (lib.toUpper arg) = tokensGet lib w arg := by
  unfold tokensGet
  rw [h]

/-- C15: whenever the request can be built, the one request of `prices` and of
`tokens get` goes to the path of the upper-cased symbol, and the one request of
`signals active`, `signals history`, `sports upcoming` and `whales` (one per fetch in
watch mode) carries the upper-cased filter as `token`, for whales as `symbol`, in its
query; when upper-casing leaves an upper-cased symbol alone, giving the symbol in
upper case changes nothing. -/
theorem symbols_upper_cased (lib : Lib) (w : World) (fl : Flags) (arg : String) :
    (fl.pricesHistory = false →
      lib.newRequestErr "GET"
        (ResolveBaseURL lib w defaultBaseURL ++ ("/api/tokens/" ++ lib.toUpper arg)) = none →
      (pricesCmd lib w fl arg).2.map Request.URL =
        [ResolveBaseURL lib w defaultBaseURL ++ ("/api/tokens/" ++ lib.toUpper arg)]) ∧
    (fl.pricesHistory = true →
      lib.newRequestErr "GET"
        (endpoint lib (ResolveBaseURL lib w defaultBaseURL)
          ("/api/tokens/" ++ lib.toUpper arg ++ "/history")
          (buildQuery [("interval", fl.pricesInterval), ("days", toString fl.pricesDays)]))
        = none →
      (pricesCmd lib w fl arg).2.map Request.URL =
        [endpoint lib (ResolveBaseURL lib w defaultBaseURL)
          ("/api/tokens/" ++ lib.toUpper arg ++ "/history")
          (buildQuery [("interval", fl.pricesInterval), ("days", toString fl.pricesDays)])]) ∧
    (lib.newRequestErr "GET"
        (ResolveBaseURL lib w defaultBaseURL ++ ("/api/tokens/" ++ lib.toUpper arg)) = none →
      (tokensGet lib w arg).2.map Request.URL =
        [ResolveBaseURL lib w defaultBaseURL ++ ("/api/tokens/" ++ lib.toUpper arg)]) ∧
    (∀ key, ResolveAPIKey lib w fl.apiKey = (key, none) → key ≠ "" →
      fl.signalsToken ≠ "" →
      lib.newRequestErr "GET"
        (endpoint lib (ResolveBaseURL lib w defaultBaseURL) "/api/v1/signals/active"
          (buildQuery [("min_confidence", fmtFixed 2 false fl.signalsMinConf),
            ("token", lib.toUpper fl.signalsToken)])) = none →
      (signalsActive lib w fl).2.map Request.URL =
        [endpoint lib (ResolveBaseURL lib w defaultBaseURL) "/api/v1/signals/active"
          (buildQuery [("min_confidence", fmtFixed 2 false fl.signalsMinConf),
            ("token", lib.toUpper fl.signalsToken)])]) ∧
    (∀ key, ResolveAPIKey lib w fl.apiKey = (key, none) → key ≠ "" →
      fl.signalsToken ≠ "" →
      lib.newRequestErr "GET"
        (endpoint lib (ResolveBaseURL lib w defaultBaseURL) "/api/v1/signals/history"
          (buildQuery
            (if fl.signalsOutcome ≠ "" then
              [("days", toString fl.signalsDays), ("limit", toString fl.signalsLimit),
                ("token", lib.toUpper fl.signalsToken), ("outcome", fl.signalsOutcome)]
            else
              [("days", toString fl.signalsDays), ("limit", toString fl.signalsLimit),
                ("token", lib.toUpper fl.signalsToken)]))) = none →
      (signalsHistory lib w fl).2.map Request.URL =
        [endpoint lib (ResolveBaseURL lib w defaultBaseURL) "/api/v1/signals/history"
          (buildQuery
            (if fl.signalsOutcome ≠ "" then
              [("days", toString fl.signalsDays), ("limit", toString fl.signalsLimit),
                ("token", lib.toUpper fl.signalsToken), ("outcome", fl.signalsOutcome)]
            else
              [("days", toString fl.signalsDays), ("limit", toString fl.signalsLimit),
                ("token", lib.toUpper fl.signalsToken)]))]) ∧
    (fl.sportsToken ≠ "" →
      lib.newRequestErr "GET"
        (endpoint lib (ResolveBaseURL lib w defaultBaseURL) "/api/matches/upcoming"
          (buildQuery [("days", toString fl.sportsDays), ("limit", "100"),
            ("token", lib.toUpper fl.sportsToken)])) = none →
      (sportsUpcoming lib w fl).2.map Request.URL =
        [endpoint lib (ResolveBaseURL lib w defaultBaseURL) "/api/matches/upcoming"
          (buildQuery [("days", toString fl.sportsDays), ("limit", "100"),
            ("token", lib.toUpper fl.sportsToken)])]) ∧
    (fl.whalesAll = false → lib.toUpper arg ≠ "" →
      lib.newRequestErr "GET"
        (endpoint lib (ResolveBaseURL lib w defaultBaseURL) "/api/whales/combined"
          (buildQuery [("limit", toString fl.whalesLimit),
            ("min_value", fmtFixed 0 false fl.whalesMinValue),
            ("hours", toString fl.whalesHours), ("symbol", lib.toUpper arg)])) = none →
      ∀ rest evs,
        (fl.whalesWatch = false →
          (whalesCmd lib w fl (arg :: rest) evs).2.sent.map Request.URL =
            [endpoint lib (ResolveBaseURL lib w defaultBaseURL) "/api/whales/combined"
              (buildQuery [("limit", toString fl.whalesLimit),
                ("min_value", fmtFixed 0 false fl.whalesMinValue),
                ("hours", toString fl.whalesHours), ("symbol", lib.toUpper arg)])]) ∧
        (fl.whalesWatch = true → 0 < tickerDuration fl.whalesInterval →
          (whalesCmd lib w fl (arg :: rest) evs).2.sent.map Request.URL =
            List.replicate (1 + ticksBeforeInterrupt evs)
              (endpoint lib (ResolveBaseURL lib w defaultBaseURL) "/api/whales/combined"
                (buildQuery [("limit", toString fl.whalesLimit),
                  ("min_value", fmtFixed 0 false fl.whalesMinValue),
                  ("hours", toString fl.whalesHours), ("symbol", lib.toUpper arg)])))) ∧
    (lib.toUpper fl.signalsToken ≠ "" →
      valuesGet (buildQuery [("min_confidence", fmtFixed 2 false fl.signalsMinConf),
        ("token", lib.toUpper fl.signalsToken)]) "token"
        = some [lib.toUpper fl.signalsToken]) ∧
    (lib.toUpper fl.signalsToken ≠ "" →
      valuesGet (buildQuery
        (if fl.signalsOutcome ≠ "" then
          [("days", toString fl.signalsDays), ("limit", toString fl.signalsLimit),
            ("token", lib.toUpper fl.signalsToken), ("outcome", fl.signalsOutcome)]
        else
          [("days", toString fl.signalsDays), ("limit", toString fl.signalsLimit),
            ("token", lib.toUpper fl.signalsToken)])) "token"
        = some [lib.toUpper fl.signalsToken]) ∧
    (lib.toUpper fl.sportsToken ≠ "" →
      valuesGet (buildQuery [("days", toString fl.sportsDays), ("limit", "100"),
        ("token", lib.toUpper fl.sportsToken)]) "token"
        = some [lib.toUpper fl.sportsToken]) ∧
    (lib.toUpper arg ≠ "" →
      valuesGet (buildQuery [("limit", toString fl.whalesLimit),
        ("min_value", fmtFixed 0 false fl.whalesMinValue),
        ("hours", toString fl.whalesHours), ("symbol", lib.toUpper arg)]) "symbol"
        = some [lib.toUpper arg]) ∧
    (lib.toUpper (lib.toUpper arg) = lib.toUpper arg →
      pricesCmd lib w fl (lib.toUpper arg) = pricesCmd lib w fl arg ∧
        tokensGet lib w (lib.toUpper arg) = tokensGet lib w arg) ∧
    (lib.toUpper arg = arg →
      lib.newRequestErr "GET"
        (ResolveBaseURL lib w defaultBaseURL ++ ("/api/tokens/" ++ arg)) = none →
      (tokensGet lib w arg).2.map Request.URL =
        [ResolveBaseURL lib w defaultBaseURL ++ ("/api/tokens/" ++ arg)]) := by
  refine ⟨?_, ?_, tokensGet_urls lib w arg, ?_, ?_, sportsUpcoming_urls lib w fl, ?_,
    ?_, ?_, ?_, ?_, ?_, ?_⟩
  · intro h hn
    unfold pricesCmd
    simp only [h, Bool.not_false, if_true]
    exact currentPrice_urls lib w (NewClient (ResolveBaseURL lib w defaultBaseURL) "") _ hn
  · intro h hn
    unfold pricesCmd
    simp only [h, Bool.not_true, Bool.false_eq_true, if_false]
    exact priceHistory_urls lib w fl (NewClient (ResolveBaseURL lib w defaultBaseURL) "") _ hn
  · intro key hk hkey ht hn
    exact signalsActive_urls lib w fl key hk hkey ht hn
  · intro key hk hkey ht hn
    exact signalsHistory_urls lib w fl key hk hkey ht hn
  · intro hall hu hn rest evs
    exact whalesCmd_urls lib w fl arg rest evs hall hu hn
  · intro h
    rw [valuesGet_buildQuery _ (by simp [mapKeys])]
    simp [mapGet, h]
  · intro h
    by_cases ho : fl.signalsOutcome = ""
    · simp only [ho, ne_eq, not_true_eq_false, if_false]
      rw [valuesGet_buildQuery _ (by simp [mapKeys])]
      simp [mapGet, h]
    · simp only [ho, ne_eq, not_false_eq_true, if_true]
      rw [valuesGet_buildQuery _ (by simp [mapKeys])]
      simp [mapGet, h]
  · intro h
    rw [valuesGet_buildQuery _ (by simp [mapKeys])]
    simp [mapGet, h]
  · intro h
    rw [valuesGet_buildQuery _ (by simp [mapKeys])]
    simp [mapGet, h]
  · intro h
    exact ⟨pricesCmd_toUpper_idem lib w fl arg h, tokensGet_toUpper_idem lib w arg h⟩
  · intro h hn
    have := tokensGet_urls lib w arg (by rw [h]; exact hn)
    rwa [h] at this

theorem symbols_upper_cased_witness :
    (sampleFlags "").pricesHistory = false ∧
    sampleLib.newRequestErr "GET"
      (ResolveBaseURL sampleLib (sampleWorld "" "" .missing (reply 200 "\x7b\x7d"))
        defaultBaseURL ++ ("/api/tokens/" ++ sampleLib.toUpper "psg")) = none ∧
    (pricesCmd sampleLib (sampleWorld "" "" .missing (reply 200 "\x7b\x7d"))
        (sampleFlags "") "psg").2.map Request.URL
      = [ResolveBaseURL sampleLib (sampleWorld "" "" .missing (reply 200 "\x7b\x7d"))
          defaultBaseURL ++ ("/api/tokens/" ++ sampleLib.toUpper "psg")] ∧
    sampleLib.toUpper "psg" = "PSG" ∧
    (pricesCmd sampleLib (sampleWorld "" "" .missing (reply 200 "\x7b\x7d"))
        (sampleFlags "") "psg").2.map Request.URL
      = ["https://web-production-ad7c4.up.railway.app/api/tokens/PSG"] ∧
    (pricesCmd sampleLib (sampleWorld "" "" .missing (reply 200 "\x7b\x7d"))
        { sampleFlags "" with pricesHistory := true } "psg").2.map Request.URL
      = ["https://web-production-ad7c4.up.railway.app/api/tokens/PSG/history"
          ++ "?interval=1h&days=7"] ∧
    (tokensGet sampleLib (sampleWorld "" "" .missing (reply 200 "\x7b\x7d"))
        "psg").2.map Request.URL
      = ["https://web-production-ad7c4.up.railway.app/api/tokens/PSG"] ∧
    (signalsActive sampleLib (sampleWorld "" "" .missing (reply 200 "\x7b\x7d"))
        { sampleFlags "K" with signalsToken := "bar" }).2.map Request.URL
      = ["https://web-production-ad7c4.up.railway.app/api/v1/signals/active"
          ++ "?min_confidence=0.65&token=BAR"] ∧
    (signalsHistory sampleLib (sampleWorld "" "" .missing (reply 200 "\x7b\x7d"))
        { sampleFlags "K" with signalsToken := "bar" }).2.map Request.URL
      = ["https://web-production-ad7c4.up.railway.app/api/v1/signals/history"
          ++ "?days=30&limit=50&token=BAR"] ∧
    (whalesCmd sampleLib (sampleWorld "" "" .missing (reply 200 "\x7b\x7d"))
        (sampleFlags "") ["psg"] []).2.sent.map Request.URL
      = ["https://web-production-ad7c4.up.railway.app/api/whales/combined"
          ++ "?limit=50&min_value=50000&hours=24&symbol=PSG"] ∧
    (sportsUpcoming sampleLib (sampleWorld "" "" .missing (reply 200 "\x7b\x7d"))
        { sampleFlags "" with sportsToken := "bar" }).2.map Request.URL
      = ["https://web-production-ad7c4.up.railway.app/api/matches/upcoming"
          ++ "?days=14&limit=100&token=BAR"] :=
  ⟨rfl, rfl,
   (symbols_upper_cased sampleLib (sampleWorld "" "" .missing (reply 200 "\x7b\x7d"))
      (sampleFlags "") "psg").1 rfl rfl,
   by decide!, by decide!, by decide!, by decide!, by decide!, by decide!, by decide!,
   by decide!⟩

/-! ### Slices: `shortTime`, `TruncStr` and the rows of the history table -/

theorem goSlice_zero {α : Type} (s : List α) (n : Nat) (h : n ≤ s.length) :
    goSlice s 0 (n : Int) = some (s.take n) := by
  unfold goSlice
  have h' : (n : Int) ≤ (s.length : Int) := by exact_mod_cast h
  simp [h']

/-- C16: `shortTime(ts)` is the first 16 bytes of `ts` when `ts` has at least 16, and
`ts` itself otherwise; so it never fails, its result is a prefix of `ts` of length
`min(len(ts), 16)`, and applying it twice is applying it once. -/
theorem shortTime_spec (ts : Bytes) :
    (16 ≤ ts.length → shortTime ts = some (ts.take 16)) ∧
    (ts.length < 16 → shortTime ts = some ts) ∧
    (∃ r, shortTime ts = some r ∧ r <+: ts ∧ r.length = min ts.length 16 ∧
      shortTime r = some r) := by
  have hlong : 16 ≤ ts.length → shortTime ts = some (ts.take 16) := by
    intro h
    have h' : (ts.length : Int) ≥ 16 := by exact_mod_cast h
    unfold shortTime
    rw [if_pos h']
    exact goSlice_zero ts 16 h
  have hshort : ∀ xs : Bytes, xs.length ≤ 16 → shortTime xs = some xs := by
    intro xs h
    unfold shortTime
    by_cases h' : (xs.length : Int) ≥ 16
    · have h16 : xs.length = 16 := by omega
      rw [if_pos h', show ((16 : Int)) = ((16 : Nat) : Int) from rfl,
        goSlice_zero xs 16 (by omega)]
      rw [← h16, List.take_length]
    · rw [if_neg h']
  refine ⟨hlong, fun h => hshort ts (by omega), ?_⟩
  by_cases h : 16 ≤ ts.length
  · refine ⟨ts.take 16, hlong h, List.take_prefix 16 ts, ?_, ?_⟩
    · rw [List.length_take]
      omega
    · apply hshort
      rw [List.length_take]
      omega
  · have h' : ts.length ≤ 16 := by omega
    refine ⟨ts, hshort ts h', List.prefix_refl ts, ?_, hshort ts h'⟩
    omega

theorem shortTime_spec_witness :
    16 ≤ (utf8 "2024-05-01T12:34:56Z").length ∧
    shortTime (utf8 "2024-05-01T12:34:56Z") = some ((utf8 "2024-05-01T12:34:56Z").take 16) ∧
    shortTime (utf8 "2024-05-01T12:34:56Z") = some (utf8 "2024-05-01T12:34") ∧
    shortTime (utf8 "2024-05-01") = some (utf8 "2024-05-01") :=
  ⟨by decide, (shortTime_spec (utf8 "2024-05-01T12:34:56Z")).1 (by decide),
   by decide, by decide⟩

/-- What `TruncStr` returns for a maximum of at least one: never a panic, the string
itself when it fits, and else its first `max - 1` bytes followed by the three bytes
of the ellipsis, which makes `max + 2` bytes. -/
theorem TruncStr_bytes (s : Bytes) (max : Int) (hmax : 1 ≤ max) :
    ((s.length : Int) ≤ max → TruncStr s max = some s) ∧
    (max < (s.length : Int) →
      TruncStr s max = some (s.take (max - 1).toNat ++ ellipsis) ∧
      ((s.take (max - 1).toNat ++ ellipsis).length : Int) = max + 2) := by
  refine ⟨?_, ?_⟩
  · intro h
    unfold TruncStr
    rw [if_pos h]
  · intro h
    have hn : ((max - 1).toNat : Int) = max - 1 := Int.toNat_of_nonneg (by omega)
    have hle : (max - 1).toNat ≤ s.length := by omega
    refine ⟨?_, ?_⟩
    · unfold TruncStr
      rw [if_neg (by omega), ← hn, goSlice_zero s _ hle]
      rfl
    · rw [List.length_append, List.length_take, Nat.min_eq_left hle]
      simp only [ellipsis, List.length_cons, List.length_nil]
      push_cast
      omega

theorem TruncStr_bytes_witness :
    (1 : Int) ≤ 3 ∧
    (((utf8 "abcd").length : Int) ≤ 3 → TruncStr (utf8 "abcd") 3 = some (utf8 "abcd")) ∧
    TruncStr (utf8 "abcd") 3 = some (utf8 "ab…") ∧ (utf8 "ab…").length = 5 ∧
    TruncStr (utf8 "abc") 3 = some (utf8 "abc") :=
  ⟨by decide, (TruncStr_bytes (utf8 "abcd") 3 (by decide)).1, by decide, by decide,
   by decide⟩

/-- C19, on the code: truncating the 25 bytes (22 characters) of
"İstanbul Başakşehir FK" to 18 gives 20 bytes, more than 18: the first 17 bytes, which
end in the middle of a two-byte letter, and the three bytes of "…". The result is not
the first 17 characters followed by "…". -/
theorem TruncStr_exceeds_max :
    (utf8 "İstanbul Başakşehir FK").length = 25 ∧
    TruncStr (utf8 "İstanbul Başakşehir FK") 18 =
      some [196, 176, 115, 116, 97, 110, 98, 117, 108, 32, 66, 97, 197, 159, 97, 107,
        197, 226, 128, 166] ∧
    (TruncStr (utf8 "İstanbul Başakşehir FK") 18).map List.length = some 20 ∧
    TruncStr (utf8 "İstanbul Başakşehir FK") 18 ≠ some (utf8 "İstanbul Başakşeh…") ∧
    (TruncStr (utf8 "abcd") 3).map List.length = some 5 := by
  refine ⟨by decide, by decide, by decide, by decide, by decide⟩

/-- C20: the rows of the price-history table are all the price points when the limit
is zero or less or is not below their number, and else the last `limit` points in
their order; so there are `n` rows for a limit of zero or less and `min(n, limit)`
rows otherwise, and the slice is never out of range. -/
theorem historyRows_spec {α : Type} (prices : List α) (limit : Int) :
    ∃ rows, historyRows prices limit = some rows ∧
      (limit ≤ 0 ∨ (prices.length : Int) ≤ limit → rows = prices) ∧
      (0 < limit ∧ limit < (prices.length : Int) →
        rows = prices.drop (prices.length - limit.toNat) ∧
        (∃ front, prices = front ++ rows) ∧ (rows.length : Int) = limit) ∧
      (limit ≤ 0 → rows.length = prices.length) ∧
      (0 < limit → (rows.length : Int) = min (prices.length : Int) limit) := by
  by_cases h : limit > 0 ∧ (prices.length : Int) > limit
  · obtain ⟨h0, h1⟩ := h
    have hn : (limit.toNat : Int) = limit := Int.toNat_of_nonneg (by omega)
    have hk : ((prices.length : Int) - limit).toNat = prices.length - limit.toNat := by omega
    have hrows : historyRows prices limit =
        some (prices.drop (prices.length - limit.toNat)) := by
      unfold historyRows goSlice
      rw [if_pos ⟨h0, h1⟩, if_pos ⟨by omega, by omega, le_refl _⟩]
      simp only [Int.toNat_ofNat, List.take_length, hk]
    have hlen : ((prices.drop (prices.length - limit.toNat)).length : Int) = limit := by
      rw [List.length_drop]
      omega
    refine ⟨_, hrows, ?_, ?_, ?_, ?_⟩
    · intro h'
      omega
    · intro _
      exact ⟨rfl, ⟨prices.take (prices.length - limit.toNat),
        (List.take_append_drop _ _).symm⟩, hlen⟩
    · intro h'
      omega
    · intro _
      rw [hlen]
      omega
  · have hrows : historyRows prices limit = some prices := by
      unfold historyRows
      rw [if_neg h]
    refine ⟨prices, hrows, fun _ => rfl, ?_, fun _ => rfl, ?_⟩
    · intro h'
      exact absurd ⟨h'.1, h'.2⟩ h
    · intro h0
      have : (prices.length : Int) ≤ limit := by
        by_contra hc
        exact h ⟨h0, by omega⟩
      omega

theorem historyRows_spec_witness :
    historyRows [10, 20, 30, 40, 50] 2 = some [40, 50] ∧
    historyRows [10, 20, 30, 40, 50] 0 = some [10, 20, 30, 40, 50] ∧
    historyRows [10, 20, 30, 40, 50] 7 = some [10, 20, 30, 40, 50] ∧
    historyRows [10, 20, 30, 40, 50] (-1) = some [10, 20, 30, 40, 50] ∧
    ∃ rows, historyRows [10, 20, 30, 40, 50] 2 = some rows ∧
      (0 < (2 : Int) ∧ (2 : Int) < (([10, 20, 30, 40, 50] : List Nat).length : Int) →
        rows = ([10, 20, 30, 40, 50] : List Nat).drop
          (([10, 20, 30, 40, 50] : List Nat).length - (2 : Int).toNat) ∧
        (∃ front, [10, 20, 30, 40, 50] = front ++ rows) ∧ (rows.length : Int) = 2) := by
  refine ⟨by decide, by decide, by decide, by decide, ?_⟩
  obtain ⟨rows, h1, _, h3, _, _⟩ := historyRows_spec ([10, 20, 30, 40, 50] : List Nat) 2
  exact ⟨rows, h1, h3⟩

/-! ### auth login -/

/-- C18: with a non-empty trimmed key `k` and a settings file that loads as
`(a, u)`, `auth login` saves exactly `(k, u)`: what it returns and the world it leaves
are those of `SaveConfig` on that record, and after a successful save the settings
load as `(k, u)` when the decoder reads back the encoder. With an empty trimmed key,
or when the settings do not load, it returns an error and leaves the world as it
was. -/
theorem authLogin_spec (lib : Lib) (w : World) :
    (∀ a u, lib.trimSpace (w.stdin.getD 0 "") ≠ "" → LoadConfig lib w = (⟨a, u⟩, none) →
      authLogin lib w =
        ((SaveConfig lib w ⟨lib.trimSpace (w.stdin.getD 0 ""), u⟩).2,
         (SaveConfig lib w ⟨lib.trimSpace (w.stdin.getD 0 ""), u⟩).1)) ∧
    (∀ a u w', lib.trimSpace (w.stdin.getD 0 "") ≠ "" → LoadConfig lib w = (⟨a, u⟩, none) →
      authLogin lib w = (none, w') →
      (∀ text, lib.tomlEncode ⟨lib.trimSpace (w.stdin.getD 0 ""), u⟩ = .ok text →
        lib.tomlDecode text = .ok ⟨lib.trimSpace (w.stdin.getD 0 ""), u⟩) →
      LoadConfig lib w' = (⟨lib.trimSpace (w.stdin.getD 0 ""), u⟩, none)) ∧
    (lib.trimSpace (w.stdin.getD 0 "") = "" →
      authLogin lib w = (some "no API key provided", w)) ∧
    (∀ err, lib.trimSpace (w.stdin.getD 0 "") ≠ "" → (LoadConfig lib w).2 = some err →
      authLogin lib w = (some err, w)) := by
  have hsave : ∀ a u, lib.trimSpace (w.stdin.getD 0 "") ≠ "" →
      LoadConfig lib w = (⟨a, u⟩, none) →
      authLogin lib w =
        ((SaveConfig lib w ⟨lib.trimSpace (w.stdin.getD 0 ""), u⟩).2,
         (SaveConfig lib w ⟨lib.trimSpace (w.stdin.getD 0 ""), u⟩).1) := by
    intro a u hk hl
    unfold authLogin
    simp only [hk, if_false, hl]
    rcases hs : SaveConfig lib w ⟨lib.trimSpace (w.stdin.getD 0 ""), u⟩ with ⟨w', _ | e⟩ <;> rfl
  refine ⟨hsave, ?_, ?_, ?_⟩
  · intro a u w' hk hl hres hlib
    have h := hsave a u hk hl
    rw [hres] at h
    have hs : SaveConfig lib w ⟨lib.trimSpace (w.stdin.getD 0 ""), u⟩ = (w', none) := by
      rcases hx : SaveConfig lib w ⟨lib.trimSpace (w.stdin.getD 0 ""), u⟩ with ⟨w'', e⟩
      rw [hx] at h
      simp only [Prod.mk.injEq] at h
      rw [h.1, h.2]
    exact LoadConfig_after_SaveConfig lib w w' _ hs hlib
  · intro hk
    unfold authLogin
    simp only [hk, if_true]
  · intro err hk hl
    unfold authLogin
    simp only [hk, if_false]
    rcases hx : LoadConfig lib w with ⟨cfg, _ | e⟩
    · rw [hx] at hl
      simp at hl
    · rw [hx] at hl
      simp only [Option.some.injEq] at hl
      rw [hl]

theorem authLogin_spec_witness :
    sampleLib.trimSpace
        (({ sampleWorld "" "" (.content "api_url = \"http://localhost:8000\"") (reply 200 "")
            with stdin := [" ti_live_1 \n"] } : World).stdin.getD 0 "") ≠ "" ∧
    LoadConfig sampleLib
        { sampleWorld "" "" (.content "api_url = \"http://localhost:8000\"") (reply 200 "")
          with stdin := [" ti_live_1 \n"] }
      = (⟨"", "http://localhost:8000"⟩, none) ∧
    authLogin sampleLib
        { sampleWorld "" "" (.content "api_url = \"http://localhost:8000\"") (reply 200 "")
          with stdin := [" ti_live_1 \n"] }
      = ((SaveConfig sampleLib
            { sampleWorld "" "" (.content "api_url = \"http://localhost:8000\"")
                (reply 200 "") with stdin := [" ti_live_1 \n"] }
            ⟨sampleLib.trimSpace
              (({ sampleWorld "" "" (.content "api_url = \"http://localhost:8000\"")
                  (reply 200 "") with stdin := [" ti_live_1 \n"] } : World).stdin.getD 0 ""),
              "http://localhost:8000"⟩).2,
         (SaveConfig sampleLib
            { sampleWorld "" "" (.content "api_url = \"http://localhost:8000\"")
                (reply 200 "") with stdin := [" ti_live_1 \n"] }
            ⟨sampleLib.trimSpace
              (({ sampleWorld "" "" (.content "api_url = \"http://localhost:8000\"")
                  (reply 200 "") with stdin := [" ti_live_1 \n"] } : World).stdin.getD 0 ""),
              "http://localhost:8000"⟩).1) ∧
    (authLogin sampleLib
        { sampleWorld "" "" (.content "api_url = \"http://localhost:8000\"") (reply 200 "")
          with stdin := [" ti_live_1 \n"] }).1 = none ∧
    LoadConfig sampleLib
        (authLogin sampleLib
          { sampleWorld "" "" (.content "api_url = \"http://localhost:8000\"") (reply 200 "")
            with stdin := [" ti_live_1 \n"] }).2
      = (⟨"ti_live_1", "http://localhost:8000"⟩, none) ∧
    (authLogin sampleLib
        { sampleWorld "" "" (.content "api_url = \"http://localhost:8000\"") (reply 200 "")
          with stdin := ["  \n"] }).1 = some "no API key provided" ∧
    (authLogin sampleLib
        { sampleWorld "" "" (.content "api_url = ") (reply 200 "")
          with stdin := ["ti_live_1\n"] }).1
      = some "reading config: toml: expected key separator" :=
  ⟨by decide!, by decide,
   (authLogin_spec sampleLib
      { sampleWorld "" "" (.content "api_url = \"http://localhost:8000\"") (reply 200 "")
        with stdin := [" ti_live_1 \n"] }).1 "" "http://localhost:8000"
      (by decide!) (by decide),
   by decide!, by decide!, by decide!, by decide!⟩

end Fti
